import Mathlib

/-!
Verification of the BSG Provider Wallet Settlement Gateway
(igw/app/providers/bsg): a shallow embedding of the wallet ledger, the
transaction journal, and the callback endpoints (authenticate, balance,
account, betResult, refundBet, bonusRelease), together with proofs about
hash verification, idempotency, the ledger invariant, and the response
contract.

Conventions of the embedding:
* Python `Decimal` money values are represented as integer minor units
  (cents, `Int`).  Every `Decimal` arising in the code is a quantized
  2-decimal-digit value, so this is lossless; the `Decimal`-level
  operations (`_cents_to_decimal`, `apply_delta_cents`,
  `_apply_amount_to_wallet`) are additionally modelled exactly over `Rat`
  and related to the cents representation by theorems.
* `hashlib.md5` is implemented in full (RFC 1321) over the UTF-8 bytes of
  the input string.
* The SQLAlchemy session is modelled by explicit state passing: an
  endpoint maps a committed database state to the committed database
  state after the request plus the wire response.  `db.rollback()`
  restores the state at the last commit; the unique constraint
  `uq_gameplay_ext (userId, bank_id, transaction_type,
  external_transaction_id)` raises `IntegrityError` at flush time exactly
  when a row with the same key is already present.  Generic storage
  exceptions (`except Exception` branches) are modelled by explicit
  failure-injection flags.
* The wire envelope is modelled as a structured response (result, code,
  message, and the RESPONSE-block payload fields); the request echo block
  and the TIME field carry no verified content and are omitted.
-/

namespace Bsg

/-! ### MD5 (hashlib.md5, RFC 1321) -/

/-- Rotate a 32-bit word left by `n` bits. -/
def rotl32 (x n : Nat) : Nat :=
  ((x <<< n) % 4294967296) ||| (x >>> (32 - n))

/-- UTF-8 encoding of one character, as byte values (`str.encode("utf-8")`). -/
def charUtf8 (c : Char) : List Nat :=
  let n := c.toNat
  if n < 128 then [n]
  else if n < 2048 then [192 + n / 64, 128 + n % 64]
  else if n < 65536 then [224 + n / 4096, 128 + (n / 64) % 64, 128 + n % 64]
  else [240 + n / 262144, 128 + (n / 4096) % 64, 128 + (n / 64) % 64, 128 + n % 64]

/-- UTF-8 bytes of a string. -/
def strBytes (s : String) : List Nat :=
  s.data.foldr (fun c acc => charUtf8 c ++ acc) []

/-- `k` bytes of `n`, little-endian. -/
def leBytes : Nat → Nat → List Nat
  | 0, _ => []
  | k + 1, n => n % 256 :: leBytes k (n / 256)

/-- MD5 padding: append `0x80`, zero-pad to 56 mod 64, append the 64-bit
little-endian bit length. -/
def md5Pad (msg : List Nat) : List Nat :=
  let len := msg.length
  let z := (120 - ((len + 1) % 64)) % 64
  msg ++ [128] ++ List.replicate z 0 ++ leBytes 8 (len * 8)

/-- Split into 64-byte chunks (fuel-structured so that it reduces). -/
def chunksAux : Nat → List Nat → List (List Nat)
  | 0, _ => []
  | _, [] => []
  | fuel + 1, x :: xs => ((x :: xs).take 64) :: chunksAux fuel ((x :: xs).drop 64)

/-- Split a byte list into 64-byte chunks. -/
def chunks64 (l : List Nat) : List (List Nat) := chunksAux l.length l

/-- MD5 round constants: floor(2^32 * abs(sin(i+1))). -/
def md5K : List Nat :=
  [3614090360, 3905402710, 606105819, 3250441966, 4118548399, 1200080426,
   2821735955, 4249261313, 1770035416, 2336552879, 4294925233, 2304563134,
   1804603682, 4254626195, 2792965006, 1236535329, 4129170786, 3225465664,
   643717713, 3921069994, 3593408605, 38016083, 3634488961, 3889429448,
   568446438, 3275163606, 4107603335, 1163531501, 2850285829, 4243563512,
   1735328473, 2368359562, 4294588738, 2272392833, 1839030562, 4259657740,
   2763975236, 1272893353, 4139469664, 3200236656, 681279174, 3936430074,
   3572445317, 76029189, 3654602809, 3873151461, 530742520, 3299628645,
   4096336452, 1126891415, 2878612391, 4237533241, 1700485571, 2399980690,
   4293915773, 2240044497, 1873313359, 4264355552, 2734768916, 1309151649,
   4149444226, 3174756917, 718787259, 3951481745]

/-- MD5 per-round left-rotation amounts. -/
def md5S : List Nat :=
  [7, 12, 17, 22, 7, 12, 17, 22, 7, 12, 17, 22, 7, 12, 17, 22,
   5, 9, 14, 20, 5, 9, 14, 20, 5, 9, 14, 20, 5, 9, 14, 20,
   4, 11, 16, 23, 4, 11, 16, 23, 4, 11, 16, 23, 4, 11, 16, 23,
   6, 10, 15, 21, 6, 10, 15, 21, 6, 10, 15, 21, 6, 10, 15, 21]

/-- MD5 nonlinear round function (F, G, H, I by round quarter). -/
def md5F (i b c d : Nat) : Nat :=
  if i < 16 then (b &&& c) ||| ((b ^^^ 4294967295) &&& d)
  else if i < 32 then (d &&& b) ||| ((d ^^^ 4294967295) &&& c)
  else if i < 48 then b ^^^ c ^^^ d
  else c ^^^ (b ||| (d ^^^ 4294967295))

/-- MD5 message-word index for round `i`. -/
def md5G (i : Nat) : Nat :=
  if i < 16 then i
  else if i < 32 then (5 * i + 1) % 16
  else if i < 48 then (3 * i + 5) % 16
  else (7 * i) % 16

/-- Little-endian 32-bit word `i` of a 64-byte block. -/
def leWord (b : List Nat) (i : Nat) : Nat :=
  b.getD (4 * i) 0 + 256 * b.getD (4 * i + 1) 0 +
    65536 * b.getD (4 * i + 2) 0 + 16777216 * b.getD (4 * i + 3) 0

/-- One MD5 round on the state (a, b, c, d). -/
def md5Round (blk : List Nat) (st : Nat × Nat × Nat × Nat) (i : Nat) :
    Nat × Nat × Nat × Nat :=
  let a := st.1
  let b := st.2.1
  let c := st.2.2.1
  let d := st.2.2.2
  let tmp := (a + md5F i b c d + md5K.getD i 0 + leWord blk (md5G i)) % 4294967296
  (d, (b + rotl32 tmp (md5S.getD i 0)) % 4294967296, b, c)

/-- Process one 64-byte block. -/
def md5Block (st : Nat × Nat × Nat × Nat) (blk : List Nat) :
    Nat × Nat × Nat × Nat :=
  let r := (List.range 64).foldl (md5Round blk) st
  ((st.1 + r.1) % 4294967296, (st.2.1 + r.2.1) % 4294967296,
   (st.2.2.1 + r.2.2.1) % 4294967296, (st.2.2.2 + r.2.2.2) % 4294967296)

/-- MD5 digest (16 bytes) of a byte list. -/
def md5Bytes (msg : List Nat) : List Nat :=
  let st := (chunks64 (md5Pad msg)).foldl md5Block
    (1732584193, 4023233417, 2562383102, 271733878)
  leBytes 4 st.1 ++ leBytes 4 st.2.1 ++ leBytes 4 st.2.2.1 ++ leBytes 4 st.2.2.2

/-- Lowercase hex digit. -/
def hexDigit (n : Nat) : Char :=
  if n < 10 then Char.ofNat (48 + n) else Char.ofNat (87 + n)

/-- Lowercase hex string of a byte list. -/
def bytesHex (bs : List Nat) : String :=
  String.mk (bs.foldr (fun b acc => hexDigit (b / 16) :: hexDigit (b % 16) :: acc) [])

/-- `helpers.md5_hex`: lowercase hex MD5 of the UTF-8 bytes of a string. -/
def md5_hex (s : String) : String :=
  bytesHex (md5Bytes (strBytes s))

/-! ### String helpers (urllib.parse.unquote_plus, str.lower, str.strip, int) -/

/-- Hex digit test for URL escapes. -/
def isHexDig (c : Char) : Bool :=
  (48 ≤ c.toNat && c.toNat ≤ 57) || (97 ≤ c.toNat && c.toNat ≤ 102) ||
    (65 ≤ c.toNat && c.toNat ≤ 70)

/-- Numeric value of a hex digit. -/
def hexVal (c : Char) : Nat :=
  if c.toNat ≤ 57 then c.toNat - 48
  else if c.toNat ≤ 70 then c.toNat - 55
  else c.toNat - 87

/-- URL-decode a character list: `+` becomes space, `%XX` with two hex
digits becomes the character with that byte value, anything else is kept
(invalid escapes keep the literal `%`).  For the ASCII data handled by the
gateway this agrees with `urllib.parse.unquote_plus`. -/
def unquoteChars : List Char → List Char
  | [] => []
  | '+' :: rest => ' ' :: unquoteChars rest
  | '%' :: h1 :: h2 :: rest2 =>
    if isHexDig h1 && isHexDig h2 then
      Char.ofNat (16 * hexVal h1 + hexVal h2) :: unquoteChars rest2
    else '%' :: unquoteChars (h1 :: h2 :: rest2)
  | '%' :: rest => '%' :: unquoteChars rest
  | c :: rest => c :: unquoteChars rest

/-- `urllib.parse.unquote_plus` on the gateway's ASCII query values. -/
def unquote_plus (s : String) : String :=
  String.mk (unquoteChars s.data)

/-- ASCII lowercase of a string (`str.lower` on the gateway's ASCII data). -/
def strLower (s : String) : String :=
  String.mk (s.data.map Char.toLower)

/-- Python whitespace test used by `str.strip`. -/
def isPySpace (c : Char) : Bool :=
  c == ' ' || c == '\t' || c == '\n' || c == '\r' || c == '\x0b' || c == '\x0c'

/-- `str.strip`: drop leading and trailing whitespace. -/
def pyStrip (s : String) : String :=
  String.mk (((s.data.dropWhile isPySpace).reverse.dropWhile isPySpace).reverse)

/-- Decimal digit test. -/
def isDigitCh (c : Char) : Bool :=
  48 ≤ c.toNat && c.toNat ≤ 57

/-- Value of a nonempty all-digit character list, `none` otherwise. -/
def digitsVal? (l : List Char) : Option Nat :=
  if l.isEmpty || !(l.all isDigitCh) then none
  else some (l.foldl (fun acc c => 10 * acc + (c.toNat - 48)) 0)

/-- `int(s)` on an already-stripped string: optional sign then digits;
`none` models the `ValueError`. -/
def parseIntPy (s : String) : Option Int :=
  match s.data with
  | '-' :: rest => (digitsVal? rest).map (fun n => -(n : Int))
  | '+' :: rest => (digitsVal? rest).map (fun n => (n : Int))
  | l => (digitsVal? l).map (fun n => (n : Int))

/-- Split at the first `|`: (part before, part after).  Mirrors
`raw.split("|", 1)` when a `|` is present. -/
def splitBar : List Char → List Char × List Char
  | [] => ([], [])
  | '|' :: rest => ([], rest)
  | c :: rest =>
    let p := splitBar rest
    (c :: p.1, p.2)

/-! ### Parsing and hashing for betResult
(`endpoints/bet_result.py`: `_parse_amount_and_ext`, `_hash_for_bet_result`) -/

/-- `_parse_amount_and_ext`: parse strings like `"80|2629682833"` into
`(some 80, some "2629682833")`; `(none, none)` for absent/empty input; a
non-integer amount part yields `none` in the first component. -/
def parse_amount_and_ext (value : Option String) : Option Int × Option String :=
  match value with
  | none => (none, none)
  | some v =>
    if v.isEmpty then (none, none)
    else
      let raw := unquote_plus v
      if raw.data.contains '|' then
        let p := splitBar raw.data
        let left := pyStrip (String.mk p.1)
        let right := pyStrip (String.mk p.2)
        let amt := if left.isEmpty then some (0 : Int) else parseIntPy left
        let ext := if right.isEmpty then none else some right
        (amt, ext)
      else
        (parseIntPy (pyStrip raw), none)

/-- The canonical concatenation hashed by `_hash_for_bet_result`:
`userId + bet + win [+ isRoundFinished] + roundId + gameId + passkey`,
with bet/win URL-decoded (empty when absent) and isRoundFinished
lowercased and omitted entirely when absent. -/
def bet_result_concat (userId : Nat) (betRaw winRaw : Option String)
    (isRoundFinished : Option String) (roundId gameId passKey : String) : String :=
  let betPart := match betRaw with
    | none => ""
    | some b => if b.isEmpty then "" else unquote_plus b
  let winPart := match winRaw with
    | none => ""
    | some w => if w.isEmpty then "" else unquote_plus w
  let parts := [Nat.repr userId, betPart, winPart] ++
    (match isRoundFinished with
     | none => []
     | some v => [strLower v]) ++ [roundId, gameId, passKey]
  String.join parts

/-- `_hash_for_bet_result`: MD5 of the canonical betResult concatenation. -/
def hash_for_bet_result (userId : Nat) (betRaw winRaw : Option String)
    (isRoundFinished : Option String) (roundId gameId passKey : String) : String :=
  md5_hex (bet_result_concat userId betRaw winRaw isRoundFinished roundId gameId passKey)

/-- The betResult endpoint's hash check:
`expected_md5.lower() == hash.lower()`. -/
def verify_bet_hash (userId : Nat) (betRaw winRaw : Option String)
    (isRoundFinished : Option String) (roundId gameId passKey supplied : String) : Bool :=
  strLower (hash_for_bet_result userId betRaw winRaw isRoundFinished roundId gameId passKey)
    == strLower supplied

/-- `helpers.hash_ok_token`: validate `MD5(token + PASS_KEY)`; a missing or
empty supplied hash fails. -/
def hash_ok_token (token passKey : String) (theirHash : Option String) : Bool :=
  match theirHash with
  | none => false
  | some h =>
    if h.isEmpty then false
    else strLower (md5_hex (token ++ passKey)) == strLower h

/-- `helpers.hash_ok_user`: validate `MD5(str(userId) + PASS_KEY)`. -/
def hash_ok_user (userId : Nat) (passKey : String) (theirHash : Option String) : Bool :=
  match theirHash with
  | none => false
  | some h =>
    if h.isEmpty then false
    else strLower (md5_hex (Nat.repr userId ++ passKey)) == strLower h

/-! ### Data model (`models.py` Wallet, `models_gameplay.py` GameplayTransaction)

Balances and amounts are integer cents (see the `Decimal` bridge below).
Echo-only columns that no endpoint ever reads back (`wallet_type`,
`last_updated`, `description`, `external_gamesession_id`,
`ISROUNDFINISHED`, `transaction_date`) are omitted. -/

/-- A `wallets` row. -/
structure Wallet where
  walletId : Nat
  userId : Nat
  currencyCode : String
  balanceC : Int
deriving DecidableEq

/-- A `gameplay_transactions` row (the transaction journal). -/
structure GameplayTransaction where
  transactionId : Nat
  userId : Nat
  walletId : Nat
  bankId : Nat
  transactionType : String
  amountC : Int
  status : String
  externalTransactionId : String
  externalGameroundId : String
  externalGameId : String
deriving DecidableEq

/-- The committed database state, plus the autoincrement counters. -/
structure DBState where
  wallets : List Wallet
  journal : List GameplayTransaction
  nextWalletId : Nat
  nextTransactionId : Nat
deriving DecidableEq

/-- The empty database. -/
def DBState.empty : DBState := ⟨[], [], 0, 0⟩

/-- A wire response: the RESPONSE block of the envelope.  `ok` carries the
fields a success envelope can contain (USERID, USERNAME, CURRENCY,
EXTSYSTEMTRANSACTIONID, BALANCE), each present only for the endpoints
that emit it; `failed` is `RESULT=FAILED` with CODE and MESSAGE;
`httpError` is an exception escaping the endpoint (no envelope at all). -/
inductive Resp where
  | ok (userId : Option Nat) (username currency extId : Option String)
      (balanceC : Option Int)
  | failed (code : Nat) (message : String)
  | httpError (code : Nat) (message : String)
deriving DecidableEq

/-- Balance-only success envelope (BALANCE). -/
def Resp.okBalance (b : Int) : Resp := .ok none none none none (some b)

/-- Settlement success envelope (EXTSYSTEMTRANSACTIONID, BALANCE). -/
def Resp.okBet (ext : String) (b : Int) : Resp := .ok none none none (some ext) (some b)

/-- Refund success envelope (EXTSYSTEMTRANSACTIONID only), the shape of
`envelope_refund_ok`; `refund_bet` never reaches it (see the `TypeError`
noted on `refund_bet`). -/
def Resp.okRefund (ext : String) : Resp := .ok none none none (some ext) none

/-- Account-shaped success envelope (USERID, USERNAME, CURRENCY, BALANCE). -/
def Resp.okAccount (uid : Nat) (username currency : String) (b : Int) : Resp :=
  .ok (some uid) (some username) (some currency) none (some b)

/-- Plain OK envelope (bonusRelease). -/
def Resp.okPlain : Resp := .ok none none none none none

/-- Per-bank configuration (`settings.BankModel`), read from the bank's
`.env`; external read-only input to the endpoints. -/
structure BankCfg where
  passKey : String
  defaultCurrency : String
  protocol : String
deriving DecidableEq

/-- `bank.BSG_DEFAULT_CURRENCY or "USD"`. -/
def bankCurrency (cfg : BankCfg) : String :=
  if cfg.defaultCurrency.isEmpty then "USD" else cfg.defaultCurrency

/-- Truthiness of an optional string parameter (`if not bet`). -/
def optPresent (o : Option String) : Bool :=
  match o with
  | none => false
  | some s => !s.isEmpty

/-! ### Wallet and journal primitives -/

/-- Look up a wallet by `(userId, currency_code)` (the filter used by
`_get_or_create_wallet`, `wallet_cents` and `refund_bet`). -/
def lookupWallet (s : DBState) (uid : Nat) (cur : String) : Option Wallet :=
  s.wallets.find? (fun w => w.userId == uid && w.currencyCode == cur)

/-- Look up a wallet row by primary key (the ORM's identity-map refresh). -/
def lookupWalletById (s : DBState) (wid : Nat) : Option Wallet :=
  s.wallets.find? (fun w => w.walletId == wid)

/-- `_get_or_create_wallet`: return the existing row or insert a
zero-balance row (flush assigns the id). -/
def getOrCreateWallet (s : DBState) (uid : Nat) (cur : String) : DBState × Wallet :=
  match lookupWallet s uid cur with
  | some w => (s, w)
  | none =>
    let w : Wallet := ⟨s.nextWalletId, uid, cur, 0⟩
    ({ s with wallets := s.wallets ++ [w], nextWalletId := s.nextWalletId + 1 }, w)

/-- Add `deltaC` cents to the wallet with id `wid` (the cents image of the
`Decimal` balance updates; see the bridge theorems). -/
def applyDeltaById (s : DBState) (wid : Nat) (deltaC : Int) : DBState :=
  { s with wallets := s.wallets.map (fun w =>
      if w.walletId == wid then { w with balanceC := w.balanceC + deltaC } else w) }

/-- `helpers.wallet_cents`: the wallet's balance in integer minor units,
0 when the wallet is absent. -/
def wallet_cents (s : DBState) (uid : Nat) (cur : String) : Int :=
  match lookupWallet s uid cur with
  | none => 0
  | some w => w.balanceC

/-- Rows matching the dedupe key
`(userId, bank_id, transaction_type, external_transaction_id)`. -/
def keyRows (s : DBState) (uid bank : Nat) (ty ext : String) :
    List GameplayTransaction :=
  s.journal.filter (fun t =>
    t.userId == uid && t.bankId == bank && t.transactionType == ty &&
      t.externalTransactionId == ext)

/-- Whether inserting a row with this dedupe key violates the
`uq_gameplay_ext` unique constraint. -/
def dupKey (s : DBState) (uid bank : Nat) (ty ext : String) : Bool :=
  !(keyRows s uid bank ty ext).isEmpty

/-- Append a journal row, letting the autoincrement assign its id. -/
def insertTxn (s : DBState) (mk : Nat → GameplayTransaction) : DBState :=
  { s with journal := s.journal ++ [mk s.nextTransactionId],
           nextTransactionId := s.nextTransactionId + 1 }

/-! ### betResult (`endpoints/bet_result.py`) -/

/-- The betResult request parameters (after `resolve_bank_id`). -/
structure BetResultReq where
  bankId : Nat
  userId : Nat
  gameId : String
  roundId : String
  hash : String
  bet : Option String
  win : Option String
  isRoundFinished : Option String
deriving DecidableEq

/-- Injected storage failures: the `except Exception` branches of the bet
block, the win block, and the final commit. -/
structure BetFaults where
  betFail : Bool
  winFail : Bool
  commitFail : Bool
deriving DecidableEq

/-- No injected storage failure. -/
def BetFaults.none : BetFaults := ⟨false, false, false⟩

/-- The bet (debit) block: insert a `Processed` bet row and debit the
wallet; on `IntegrityError` (duplicate dedupe key) roll back to the
committed state and continue; on a generic storage error roll back and
answer 500. -/
def betDebitBlock (req : BetResultReq) (faults : BetFaults)
    (committed working : DBState) (w : Wallet) (amt : Int) (ext : String) :
    Except (DBState × Resp) DBState :=
  if faults.betFail then
    .error (committed, .failed 500 "internal error applying bet")
  else if dupKey working req.userId req.bankId "bet" ext then
    .ok committed
  else
    .ok (applyDeltaById
      (insertTxn working (fun tid =>
        ⟨tid, req.userId, w.walletId, req.bankId, "bet", amt, "Processed",
          ext, req.roundId, req.gameId⟩))
      w.walletId (-amt))

/-- The win (credit) block: insert a `Processed` win row and credit the
wallet only when the amount is strictly positive
(`if win_cents and win_cents > 0`); the stale wallet proxy is refreshed by
primary key, and a vanished row surfaces as the generic 500 branch. -/
def winCreditBlock (req : BetResultReq) (faults : BetFaults)
    (committed working : DBState) (w : Wallet) (amt : Int) (ext : String) :
    Except (DBState × Resp) DBState :=
  if faults.winFail then
    .error (committed, .failed 500 "internal error applying win")
  else
    match lookupWalletById working w.walletId with
    | none => .error (committed, .failed 500 "internal error applying win")
    | some w2 =>
      if dupKey working req.userId req.bankId "win" ext then
        .ok committed
      else
        let working2 := insertTxn working (fun tid =>
          ⟨tid, req.userId, w2.walletId, req.bankId, "win", amt, "Processed",
            ext, req.roundId, req.gameId⟩)
        .ok (if 0 < amt then applyDeltaById working2 w2.walletId amt else working2)

/-- The settlement phase of betResult, after parameter and hash checks:
get-or-create the wallet, run the bet block then the win block (each side
only when its amount and external id both parsed), commit, then build the
response from a fresh balance read, echoing the win-side external id when
present, else the bet-side one. -/
def betResultSettle (cfg : BankCfg) (req : BetResultReq) (faults : BetFaults)
    (s : DBState) : DBState × Resp :=
  let bp := parse_amount_and_ext req.bet
  let wp := parse_amount_and_ext req.win
  let cur := bankCurrency cfg
  let p := getOrCreateWallet s req.userId cur
  let afterBet : Except (DBState × Resp) DBState :=
    match bp.1, bp.2 with
    | some amt, some ext => betDebitBlock req faults s p.1 p.2 amt ext
    | _, _ => .ok p.1
  match afterBet with
  | .error r => r
  | .ok working =>
    let afterWin : Except (DBState × Resp) DBState :=
      match wp.1, wp.2 with
      | some amt, some ext => winCreditBlock req faults s working p.2 amt ext
      | _, _ => .ok working
    match afterWin with
    | .error r => r
    | .ok working2 =>
      if faults.commitFail then
        (s, .failed 500 "internal error committing")
      else
        let extId := match wp.2 with
          | some e => e
          | none => match bp.2 with
            | some e => e
            | none => ""
        (working2, .okBet extId (wallet_cents working2 req.userId cur))

/-- `bet_result`: the full endpoint.  At least one of bet/win must be
present; the hash is verified over the canonical concatenation; then the
settlement phase runs. -/
def bet_result (cfg : BankCfg) (req : BetResultReq) (faults : BetFaults)
    (s : DBState) : DBState × Resp :=
  if !optPresent req.bet && !optPresent req.win then
    (s, .failed 400 "missing parameters: bet and/or win")
  else if !(verify_bet_hash req.userId req.bet req.win req.isRoundFinished
      req.roundId req.gameId cfg.passKey req.hash) then
    (s, .failed 401 "invalid hash")
  else
    betResultSettle cfg req faults s

/-! ### refundBet (`endpoints/refund_bet.py`) -/

/-- The refundBet request parameters (after `resolve_bank_id`). -/
structure RefundReq where
  bankId : Nat
  userId : Nat
  casinoTransactionId : String
  hash : String
deriving DecidableEq

/-- Injected storage failures: the `except Exception` around the credit
and commit, and the best-effort save of the `Failed` row. -/
structure RefundFaults where
  commitFail : Bool
  failSaveFail : Bool
deriving DecidableEq

/-- No injected storage failure. -/
def RefundFaults.none : RefundFaults := ⟨false, false⟩

/-- The latest matching refund row
(`order_by(transaction_id.desc()).first()`). -/
def latestRefund (l : List GameplayTransaction) : Option GameplayTransaction :=
  l.foldl (fun acc t =>
    match acc with
    | none => some t
    | some u => if u.transactionId < t.transactionId then some t else some u) none

/-- `refund_bet`: verify `MD5(userId + casinoTransactionId + passkey)`;
find the original bet row for the casino transaction id (any status);
absent means FAILED 302.  If the latest refund row for the key is
`Processed`, the replay stops without writing — and without replying:
building the success envelope calls `envelope_ok` with the nonexistent
`response_inner_xml` keyword, so a `TypeError` escapes as a
transport-level error.  Otherwise credit the wallet by the original bet
amount and insert a `Processed` refund row in one commit; the commit
precedes the envelope construction, so the fresh path also ends in the
same uncaught `TypeError` after its state effects are committed.  A
storage failure at the commit instead best-effort-commits the row as
`Failed` and answers 500 (that path uses `envelope_fail`, which is called
correctly).  A non-`Processed` refund row already present makes the
insert violate `uq_gameplay_ext`; that `IntegrityError` is likewise
uncaught. -/
def refund_bet (cfg : BankCfg) (req : RefundReq) (faults : RefundFaults)
    (s : DBState) : DBState × Resp :=
  let uid := req.userId
  let ctid := req.casinoTransactionId
  if !(strLower (md5_hex (Nat.repr uid ++ ctid ++ cfg.passKey)) == strLower req.hash) then
    (s, .failed 401 "invalid hash")
  else
    match s.journal.find? (fun t =>
        t.userId == uid && t.externalTransactionId == ctid &&
          t.transactionType == "bet" && t.bankId == req.bankId) with
    | none => (s, .failed 302 "ORIGINAL_TRANSACTION_NOT_FOUND")
    | some origBet =>
      let existing := latestRefund (keyRows s uid req.bankId "refund" ctid)
      match existing with
      | some r =>
        if strLower r.status == "processed" then
          (s, .httpError 500 "TypeError: envelope_ok")
        else
          -- the flush of the new refund row hits uq_gameplay_ext
          match lookupWallet s uid (bankCurrency cfg) with
          | none => (s, .failed 404 "USER_WALLET_NOT_FOUND")
          | some _ => (s, .httpError 500 "IntegrityError: uq_gameplay_ext")
      | none =>
        let amount := origBet.amountC
        match lookupWallet s uid (bankCurrency cfg) with
        | none => (s, .failed 404 "USER_WALLET_NOT_FOUND")
        | some wallet =>
          let mkRow : String → Nat → GameplayTransaction := fun st tid =>
            ⟨tid, uid, wallet.walletId, req.bankId, "refund", amount, st,
              ctid, origBet.externalGameroundId, origBet.externalGameId⟩
          if faults.commitFail then
            if faults.failSaveFail then
              (s, .failed 500 "REFUND_FAILED")
            else
              (insertTxn s (mkRow "Failed"), .failed 500 "REFUND_FAILED")
          else
            (applyDeltaById (insertTxn s (mkRow "Processed")) wallet.walletId amount,
              .httpError 500 "TypeError: envelope_ok")

/-! ### balance, account, authenticate, bonusRelease -/

/-- `balance`: verify `MD5(userId + PASS_KEY)` and answer the wallet
balance in minor units in the bank's default currency (0 when the wallet
is absent); the state is never written. -/
def balance (cfg : BankCfg) (userId : Option Nat) (hash : Option String)
    (s : DBState) : DBState × Resp :=
  match userId with
  | none => (s, .failed 400 "missing userId or hash")
  | some uid =>
    if !optPresent hash then (s, .failed 400 "missing userId or hash")
    else if !(hash_ok_user uid cfg.passKey hash) then
      (s, .failed 401 "INVALID_HASH")
    else
      (s, .okBalance (wallet_cents s uid (bankCurrency cfg)))

/-- A `players` row (read-only input to account and authenticate). -/
structure Player where
  userId : Nat
  userName : Option String
deriving DecidableEq

/-- `account_info`: verify the hash, require the player to exist, answer
the account-shaped envelope; read-only. -/
def account_info (cfg : BankCfg) (players : List Player)
    (userId : Option Nat) (hash : Option String) (s : DBState) : DBState × Resp :=
  match userId with
  | none => (s, .failed 400 "missing userId or hash")
  | some uid =>
    if !optPresent hash then (s, .failed 400 "missing userId or hash")
    else if !(hash_ok_user uid cfg.passKey hash) then
      (s, .failed 401 "INVALID_HASH")
    else
      match players.find? (fun p => p.userId == uid) with
      | none => (s, .failed 404 "USER_NOT_FOUND")
      | some player =>
        let username := match player.userName with
          | some nm => if nm.isEmpty then "user_" ++ Nat.repr uid else nm
          | none => "user_" ++ Nat.repr uid
        (s, .okAccount uid username (bankCurrency cfg)
          (wallet_cents s uid (bankCurrency cfg)))

/-- Decoded token claims (`decode_token` is an external signed-token
primitive; `sub` and `uid` are the claims the endpoints read). -/
structure TokenPayload where
  sub : Option String
  uidClaim : Option Nat
deriving DecidableEq

/-- A `user_sessions` row as queried by authenticate. -/
structure UserSession where
  userId : Nat
  token : String
  sessionType : String
  provider : String
  status : String
deriving DecidableEq

/-- `authenticate`: enforce the xml dialect, verify
`MD5(token + PASS_KEY)`, decode the token (failure: INVALID_TOKEN),
extract the user id from `sub` (decimal digits) or `uid`, require an
active bsg game session for `(uid, token)`, answer the account-shaped
envelope; read-only.  `decodeTok` stands for the external token issuer's
decoder (`none` models a decode exception). -/
def authenticate (cfg : BankCfg) (decodeTok : String → Option TokenPayload)
    (sessions : List UserSession) (players : List Player)
    (token hash : String) (s : DBState) : DBState × Resp :=
  let protocol := strLower (if cfg.protocol.isEmpty then "xml" else cfg.protocol)
  if protocol ≠ "xml" then
    (s, .failed 400 "Bank protocol mismatch: expected xml")
  else if !(hash_ok_token token cfg.passKey (some hash)) then
    (s, .failed 401 "INVALID_HASH")
  else
    match decodeTok token with
    | none => (s, .failed 401 "INVALID_TOKEN")
    | some payload =>
      let fromSub : Option Nat := match payload.sub with
        | none => none
        | some t => if t.isEmpty || !(t.data.all isDigitCh) then none
            else some (t.data.foldl (fun acc c => 10 * acc + (c.toNat - 48)) 0)
      let uidOpt := match fromSub with
        | some u => some u
        | none => payload.uidClaim
      match uidOpt with
      | none => (s, .failed 401 "INVALID_TOKEN no user in token")
      | some uid =>
        match sessions.find? (fun ses =>
            ses.userId == uid && ses.token == token &&
              ses.sessionType == "game" && ses.provider == "bsg" &&
              ses.status == "active") with
        | none => (s, .failed 401 "SESSION_NOT_FOUND")
        | some _ =>
          let username := match players.find? (fun p => p.userId == uid) with
            | some p =>
              match p.userName with
              | some nm => if nm.isEmpty then "user_" ++ Nat.repr uid else nm
              | none => "user_" ++ Nat.repr uid
            | none => "user_" ++ Nat.repr uid
          (s, .okAccount uid username (bankCurrency cfg)
            (wallet_cents s uid (bankCurrency cfg)))

/-- `bonus_release`: require token and hash, verify `MD5(token +
PASS_KEY)`, decode the token (its exceptions are uncaught here), require
a `uid` claim, answer a plain OK; read-only. -/
def bonus_release (cfg : BankCfg) (decodeTok : String → Option TokenPayload)
    (token hash : Option String) (s : DBState) : DBState × Resp :=
  if !optPresent token || !optPresent hash then
    (s, .failed 400 "missing token or hash")
  else
    let tok := token.getD ""
    if !(hash_ok_token tok cfg.passKey hash) then
      (s, .failed 401 "invalid hash")
    else
      match decodeTok tok with
      | none => (s, .httpError 500 "token decode error")
      | some payload =>
        match payload.uidClaim with
        | none => (s, .failed 401 "invalid token")
        | some _ => (s, .okPlain)

/-! ### Bank resolution (`settings.resolve_bank_id`)

The configured bank ids come from the per-bank `.env` directories and the
base default from the base `.env`; both are external inputs here.
`sorted(available)[0]` is the smallest configured id. -/

/-- The smallest element of the available-bank list
(`sorted(available)[0]`). -/
def minBank : List Nat → Option Nat
  | [] => none
  | x :: xs => some (xs.foldl Nat.min x)

/-- Python truthiness of an optional bank id (`if incoming_bank_id`). -/
def truthyBank : Option Nat → Bool
  | none => false
  | some i => i != 0

/-- `resolve_bank_id`: use the incoming id when truthy and configured,
else the base default when truthy and configured, else the first
available configured bank, else fail (HTTP 500). -/
def resolve_bank_id (available : List Nat) (defaultBankId incoming : Option Nat) :
    Option Nat :=
  if truthyBank incoming && available.contains (incoming.getD 0) then incoming
  else if truthyBank defaultBankId && available.contains (defaultBankId.getD 0) then
    defaultBankId
  else minBank available

/-! ### Decimal bridge (`wallet_utils.py`, `bet_result._apply_amount_to_wallet`)

`Decimal` money values are modelled exactly as rationals;
`quantize(Decimal("0.01"), mode)` becomes rounding of `100 x` to an
integer under the given mode, divided back by 100. -/

/-- `ROUND_HALF_UP` of a rational to an integer: round half away from
zero. -/
def roundHalfUpZ (q : ℚ) : ℤ :=
  if 0 ≤ q then ⌊q + 1 / 2⌋ else -⌊-q + 1 / 2⌋

/-- `ROUND_DOWN` of a rational to an integer: truncate toward zero. -/
def roundDownZ (q : ℚ) : ℤ :=
  if 0 ≤ q then ⌊q⌋ else ⌈q⌉

/-- `x.quantize(Decimal("0.01"), rounding)` for a given rounding mode. -/
def quantize2 (round : ℚ → ℤ) (x : ℚ) : ℚ :=
  (round (x * 100) : ℚ) / 100

/-- `wallet_utils._cents_to_decimal`:
`(Decimal(cents) / Decimal(100)).quantize(CENT, ROUND_HALF_UP)`. -/
def cents_to_decimal (c : ℤ) : ℚ :=
  quantize2 roundHalfUpZ ((c : ℚ) / 100)

/-- `wallet_utils.apply_delta_cents`: add the converted delta to the
balance and quantize half-up. -/
def apply_delta_cents (bal : ℚ) (c : ℤ) : ℚ :=
  quantize2 roundHalfUpZ (bal + cents_to_decimal c)

/-- `bet_result._apply_amount_to_wallet`: convert the cents with
`ROUND_DOWN`, subtract for a debit / add for a credit, quantize
`ROUND_DOWN`. -/
def apply_amount_to_wallet (bal : ℚ) (c : ℤ) (debit : Bool) : ℚ :=
  let delta := quantize2 roundDownZ ((c : ℚ) / 100)
  if debit then quantize2 roundDownZ (bal - delta)
  else quantize2 roundDownZ (bal + delta)

/-- A value representable with at most 2 decimal digits. -/
def TwoDp (x : ℚ) : Prop := ∃ k : ℤ, x = (k : ℚ) / 100

/-! ### Claim-level definitions -/

/-- Signed amount of a journal row: bets are debits, wins and refunds are
credits. -/
def signedC (t : GameplayTransaction) : Int :=
  if t.transactionType == "bet" then -t.amountC else t.amountC

/-- Sum of the signed amounts of all `Processed` journal rows of one
wallet. -/
def sumProcessed (s : DBState) (wid : Nat) : Int :=
  (s.journal.filter (fun t => t.walletId == wid && t.status == "Processed")).foldr
    (fun t acc => signedC t + acc) 0

/-- The ledger invariant: every wallet's balance equals the signed sum of
its `Processed` journal rows. -/
def Inv (s : DBState) : Prop :=
  ∀ w ∈ s.wallets, w.balanceC = sumProcessed s w.walletId

/-- Database well-formedness: the autoincrement wallet counter bounds
every wallet id referenced anywhere. -/
def WF (s : DBState) : Prop :=
  (∀ w ∈ s.wallets, w.walletId < s.nextWalletId) ∧
    (∀ t ∈ s.journal, t.walletId < s.nextWalletId)

/-- Contribution of one journal row to a wallet's `Processed` signed sum. -/
def contrib (t : GameplayTransaction) (wid : Nat) : Int :=
  if t.walletId == wid && t.status == "Processed" then signedC t else 0

instance instDecidableInv (s : DBState) : Decidable (Inv s) := by
  unfold Inv; infer_instance

instance instDecidableWF (s : DBState) : Decidable (WF s) := by
  unfold WF; infer_instance

/-- Number of `Processed` journal rows carrying a given dedupe key. -/
def processedCount (s : DBState) (uid bank : Nat) (ty ext : String) : Nat :=
  ((keyRows s uid bank ty ext).filter (fun t => t.status == "Processed")).length

/-- State and response after issuing the same request `n + 1` times
sequentially, each call starting from the committed state the previous
call left. -/
def iterateCalls (f : DBState → DBState × Resp) : Nat → DBState → DBState × Resp
  | 0, s => f s
  | n + 1, s => iterateCalls f n (f s).1

/-- Whether a response is a FAILED envelope. -/
def Resp.isFailed : Resp → Bool
  | .failed _ _ => true
  | _ => false

/-- The zero-balance wallet row inserted on first touch. -/
def createdWallet (s : DBState) (uid : Nat) (cur : String) : Wallet :=
  ⟨s.nextWalletId, uid, cur, 0⟩

/-- The state after inserting a fresh zero-balance wallet. -/
def withNewWallet (s : DBState) (uid : Nat) (cur : String) : DBState :=
  { s with wallets := s.wallets ++ [createdWallet s uid cur],
           nextWalletId := s.nextWalletId + 1 }

/-- The committed state after a fresh bet-only settlement: get-or-create
the wallet, insert the `Processed` bet row, debit the wallet. -/
def betFreshState (cfg : BankCfg) (req : BetResultReq) (amt : Int) (ext : String)
    (s : DBState) : DBState :=
  applyDeltaById
    (insertTxn (getOrCreateWallet s req.userId (bankCurrency cfg)).1
      (fun tid =>
        ⟨tid, req.userId,
          (getOrCreateWallet s req.userId (bankCurrency cfg)).2.walletId,
          req.bankId, "bet", amt, "Processed", ext, req.roundId, req.gameId⟩))
    (getOrCreateWallet s req.userId (bankCurrency cfg)).2.walletId (-amt)

/-! ### Concrete sample data for witnesses and counterexamples -/

/-- A sample bank configuration. -/
def sampleCfg : BankCfg := ⟨"sec", "USD", "xml"⟩

/-- A sample wallet row for player 42 with balance 1.00. -/
def wallet42 : Wallet := ⟨0, 42, "USD", 100⟩

/-- A `Pending` bet journal row for player 42, external id "abc". -/
def pendingBet42 : GameplayTransaction :=
  ⟨0, 42, 0, 6111, "bet", 80, "Pending", "abc", "r1", "g1"⟩

/-- A `Processed` bet journal row for player 42, external id "abc". -/
def processedBet42 : GameplayTransaction :=
  ⟨0, 42, 0, 6111, "bet", 80, "Processed", "abc", "r1", "g1"⟩

/-- A `Processed` refund journal row for player 42, external id "abc". -/
def processedRefund42 : GameplayTransaction :=
  ⟨1, 42, 0, 6111, "refund", 80, "Processed", "abc", "r1", "g1"⟩

/-! ## Theorems -/

set_option maxRecDepth 1000000

/-! ### Sanity: the MD5 implementation reproduces hashlib's test vectors -/

theorem md5_hex_vector_empty : md5_hex "" = "d41d8cd98f00b204e9800998ecf8427e" := by
  decide

theorem md5_hex_vector_abc : md5_hex "abc" = "900150983cd24fb0d6963f7d28e17f72" := by
  decide

theorem md5_hex_vector_fox :
    md5_hex "The quick brown fox jumps over the lazy dog" =
      "9e107d9d372bb6826bd81d3542a419d6" := by
  decide

theorem unquote_plus_pipe : unquote_plus "80%7C123" = "80|123" := by decide

/-! ### String append helpers -/

theorem str_append_empty (s : String) : s ++ "" = s := by
  cases s with
  | mk l => show String.mk (l ++ []) = String.mk l; rw [List.append_nil]

theorem str_empty_append (s : String) : "" ++ s = s := by
  cases s with
  | mk l => rfl

theorem str_length_append (s t : String) : (s ++ t).length = s.length + t.length := by
  cases s with
  | mk l =>
    cases t with
    | mk m => show (l ++ m).length = l.length + m.length; exact List.length_append l m

/-! ### Rounding lemmas for the Decimal bridge -/

theorem roundHalfUpZ_intCast (n : ℤ) : roundHalfUpZ (n : ℚ) = n := by
  unfold roundHalfUpZ
  have h0 : ⌊(1 : ℚ) / 2⌋ = 0 := by norm_num
  split
  · rw [show ((n : ℚ) + 1 / 2) = 1 / 2 + (n : ℚ) by ring, Int.floor_add_int, h0,
      zero_add]
  · rw [show (-(n : ℚ) + 1 / 2) = 1 / 2 + ((-n : ℤ) : ℚ) by push_cast; ring,
      Int.floor_add_int, h0, zero_add, neg_neg]

theorem roundDownZ_intCast (n : ℤ) : roundDownZ (n : ℚ) = n := by
  unfold roundDownZ
  split
  · exact Int.floor_intCast n
  · exact Int.ceil_intCast n

theorem quantize2_exact (round : ℚ → ℤ) (hr : ∀ n : ℤ, round (n : ℚ) = n)
    (k : ℤ) : quantize2 round ((k : ℚ) / 100) = (k : ℚ) / 100 := by
  unfold quantize2
  rw [show ((k : ℚ) / 100 * 100) = (k : ℚ) by field_simp, hr]

/-- Claim C8: applying a delta converts integer minor units to decimal
currency units exactly (the half-up rounding of an exact 2-decimal value
is that value), adds it with the correct sign (debit subtracts, credit
adds), and every resulting stored balance is again an exact 2-decimal
value. -/
theorem C8_apply_delta_exact_two_dp (k c : ℤ) :
    cents_to_decimal c = (c : ℚ) / 100 ∧
    apply_delta_cents ((k : ℚ) / 100) c = ((k : ℚ) + (c : ℚ)) / 100 ∧
    apply_amount_to_wallet ((k : ℚ) / 100) c true = ((k : ℚ) - (c : ℚ)) / 100 ∧
    apply_amount_to_wallet ((k : ℚ) / 100) c false = ((k : ℚ) + (c : ℚ)) / 100 ∧
    TwoDp (apply_delta_cents ((k : ℚ) / 100) c) ∧
    TwoDp (apply_amount_to_wallet ((k : ℚ) / 100) c true) ∧
    TwoDp (apply_amount_to_wallet ((k : ℚ) / 100) c false) := by
  have hctd : cents_to_decimal c = (c : ℚ) / 100 :=
    quantize2_exact roundHalfUpZ roundHalfUpZ_intCast c
  have hsum : ((k : ℚ) / 100 + (c : ℚ) / 100) = (((k + c : ℤ) : ℚ)) / 100 := by
    push_cast; ring
  have hdiff : ((k : ℚ) / 100 - (c : ℚ) / 100) = (((k - c : ℤ) : ℚ)) / 100 := by
    push_cast; ring
  have hadd : apply_delta_cents ((k : ℚ) / 100) c = ((k : ℚ) + (c : ℚ)) / 100 := by
    unfold apply_delta_cents
    rw [hctd, hsum, quantize2_exact roundHalfUpZ roundHalfUpZ_intCast]
    push_cast; ring
  have hdeb : apply_amount_to_wallet ((k : ℚ) / 100) c true = ((k : ℚ) - (c : ℚ)) / 100 := by
    unfold apply_amount_to_wallet
    rw [quantize2_exact roundDownZ roundDownZ_intCast]
    simp only [if_pos rfl, Bool.true_eq]
    rw [hdiff, quantize2_exact roundDownZ roundDownZ_intCast]
    push_cast; ring
  have hcred : apply_amount_to_wallet ((k : ℚ) / 100) c false = ((k : ℚ) + (c : ℚ)) / 100 := by
    unfold apply_amount_to_wallet
    rw [quantize2_exact roundDownZ roundDownZ_intCast]
    simp only [Bool.false_eq_true, if_false]
    rw [hsum, quantize2_exact roundDownZ roundDownZ_intCast]
    push_cast; ring
  refine ⟨hctd, hadd, hdeb, hcred, ⟨k + c, ?_⟩, ⟨k - c, ?_⟩, ⟨k + c, ?_⟩⟩
  · rw [hadd]; push_cast; ring
  · rw [hdeb]; push_cast; ring
  · rw [hcred]; push_cast; ring

/-! ### C7: bank resolution is not a hard error on unknown ids -/

theorem foldl_min_mem (x : Nat) (xs : List Nat) : xs.foldl Nat.min x ∈ x :: xs := by
  induction xs generalizing x with
  | nil => simp
  | cons y ys ih =>
    have h := ih (Nat.min x y)
    rw [List.foldl_cons]
    rcases List.mem_cons.mp h with h1 | h2
    · rw [h1, show x.min y = min x y from rfl]
      rcases min_choice x y with h2 | h2 <;> rw [h2]
      · exact List.mem_cons_self _ _
      · exact List.mem_cons_of_mem _ (List.mem_cons_self _ _)
    · exact List.mem_cons_of_mem _ (List.mem_cons_of_mem _ h2)

theorem minBank_mem {l : List Nat} {m : Nat} (h : minBank l = some m) : m ∈ l := by
  cases l with
  | nil => simp [minBank] at h
  | cons x xs =>
    simp only [minBank, Option.some.injEq] at h
    exact h ▸ foldl_min_mem x xs

theorem minBank_eq_none_iff (l : List Nat) : minBank l = none ↔ l = [] := by
  cases l <;> simp [minBank]

theorem contains_mem {l : List Nat} {a : Nat} (h : l.contains a = true) : a ∈ l := by
  simpa using h

theorem resolve_fallback_eq_none_iff (available : List Nat) (dflt : Option Nat) :
    resolve_bank_id available dflt none = none ↔ available = [] := by
  unfold resolve_bank_id
  rw [if_neg (by simp [truthyBank])]
  by_cases hc : (truthyBank dflt && available.contains (dflt.getD 0)) = true
  · rw [if_pos hc, Bool.and_eq_true] at *
    obtain ⟨ht, hm⟩ := hc
    cases dflt with
    | none => exact absurd ht (by simp [truthyBank])
    | some d =>
      have hd : d ∈ available := contains_mem hm
      constructor
      · intro h; exact absurd h (by simp)
      · intro h; subst h; simp at hd
  · rw [if_neg hc]
    exact minBank_eq_none_iff available

theorem resolve_fallback_mem (available : List Nat) (dflt : Option Nat) {b : Nat}
    (h : resolve_bank_id available dflt none = some b) : b ∈ available := by
  unfold resolve_bank_id at h
  rw [if_neg (by simp [truthyBank])] at h
  by_cases hc : (truthyBank dflt && available.contains (dflt.getD 0)) = true
  · rw [if_pos hc] at h
    rw [Bool.and_eq_true] at hc
    obtain ⟨ht, hm⟩ := hc
    cases dflt with
    | none => exact absurd ht (by simp [truthyBank])
    | some d =>
      cases h
      exact contains_mem hm
  · rw [if_neg hc] at h
    exact minBank_mem h

/-- Claim C7 (amended): an unknown or falsy incoming `bankId` is not a
hard error: the callback is silently redirected — the resolution falls
back exactly as if no `bankId` had been sent (base default bank if
configured and available, else the smallest configured bank), every
non-error resolution lands on a configured bank, and a hard error occurs
only when no bank at all is configured. -/
theorem C7_resolve_bank_id_falls_back (available : List Nat) (dflt : Option Nat)
    (inc : Option Nat) :
    (resolve_bank_id available dflt inc = none ↔ available = []) ∧
    (∀ i, inc = some i → (i = 0 ∨ available.contains i = false) →
      resolve_bank_id available dflt inc = resolve_bank_id available dflt none) ∧
    (∀ b, resolve_bank_id available dflt inc = some b → b ∈ available) := by
  cases inc with
  | none =>
    refine ⟨resolve_fallback_eq_none_iff available dflt, ?_,
      fun b => resolve_fallback_mem available dflt⟩
    intro i h
    exact absurd h (by simp)
  | some i =>
    have hfall : resolve_bank_id available dflt none =
        (if (truthyBank dflt && available.contains (dflt.getD 0)) = true then dflt
         else minBank available) := rfl
    have hred : resolve_bank_id available dflt (some i) =
        (if ((i != 0) && available.contains i) = true then some i
         else resolve_bank_id available dflt none) := by
      rw [hfall]; rfl
    refine ⟨?_, ?_, ?_⟩
    · rw [hred]
      by_cases hc : ((i != 0) && available.contains i) = true
      · rw [if_pos hc]
        rw [Bool.and_eq_true] at hc
        have hi : i ∈ available := contains_mem hc.2
        constructor
        · intro h; exact absurd h (by simp)
        · intro h; subst h; simp at hi
      · rw [if_neg hc]
        exact resolve_fallback_eq_none_iff available dflt
    · intro j hj hcond
      injection hj with hji
      subst hji
      rw [hred]
      have hfalse : ((i != 0) && available.contains i) = false := by
        rcases hcond with h0 | h0
        · subst h0; simp
        · rw [h0, Bool.and_false]
      rw [hfalse]
      simp
    · intro b hb
      rw [hred] at hb
      by_cases hc : ((i != 0) && available.contains i) = true
      · rw [if_pos hc] at hb
        rw [Bool.and_eq_true] at hc
        cases hb
        exact contains_mem hc.2
      · rw [if_neg hc] at hb
        exact resolve_fallback_mem available dflt hb

theorem C7_witness :
    resolve_bank_id [3, 7] none (some 99) = resolve_bank_id [3, 7] none none ∧
      3 ∈ [3, 7] :=
  ⟨(C7_resolve_bank_id_falls_back [3, 7] none (some 99)).2.1 99 rfl (by decide),
   (C7_resolve_bank_id_falls_back [3, 7] none (some 99)).2.2 3 (by decide)⟩

/-- Claim C7 counterexample: bankId 9999 is not configured (the only
configured bank is 6111), yet resolution does not fail — it silently
redirects to bank 6111, so the callback proceeds under a different bank's
configuration. -/
theorem C7_counterexample :
    resolve_bank_id [6111] none (some 9999) = some 6111 ∧
      (9999 : Nat) ∉ [6111] ∧ resolve_bank_id [6111] none (some 9999) ≠ none := by
  decide

/-! ### C9: balance answers 0 without creating a wallet -/

/-- Claim C9 (amended): a balance callback with a valid hash for a player
with no wallet in the bank's default currency answers a success envelope
with BALANCE=0 but does not create any wallet row — the state is returned
unchanged (wallets are created lazily by settlement, not by balance). -/
theorem C9_balance_no_autocreate (cfg : BankCfg) (uid : Nat) (h : String)
    (s : DBState) (hw : lookupWallet s uid (bankCurrency cfg) = none)
    (hh : hash_ok_user uid cfg.passKey (some h) = true) :
    balance cfg (some uid) (some h) s = (s, Resp.okBalance 0) := by
  have hne : h.isEmpty = false := by
    cases he : h.isEmpty
    · rfl
    · exfalso
      simp [hash_ok_user, he] at hh
  unfold balance
  simp [optPresent, hne, hh, wallet_cents, hw]

theorem C9_witness :
    balance ⟨"secret", "USD", "xml"⟩ (some 7) (some (md5_hex "7secret"))
        DBState.empty = (DBState.empty, Resp.okBalance 0) :=
  C9_balance_no_autocreate ⟨"secret", "USD", "xml"⟩ 7 (md5_hex "7secret")
    DBState.empty rfl (by decide)

/-- Claim C9 counterexample: after a valid-hash balance call for player 7
who has no wallet, the response is OK with BALANCE=0 but the wallet table
is still empty — no wallet row exists afterwards, contradicting the
claimed auto-creation. -/
theorem C9_counterexample :
    (balance ⟨"secret", "USD", "xml"⟩ (some 7) (some (md5_hex "7secret"))
        DBState.empty).2 = Resp.okBalance 0 ∧
    (balance ⟨"secret", "USD", "xml"⟩ (some 7) (some (md5_hex "7secret"))
        DBState.empty).1.wallets = [] := by
  decide

/-! ### C5: decode-before-hash for betResult -/

theorem bet_concat_80_7C_123 (uid : Nat) (rid gid pk : String) :
    bet_result_concat uid (some "80%7C123") none none rid gid pk
      = Nat.repr uid ++ "80|123" ++ rid ++ gid ++ pk := by
  have h1 : (if ("80%7C123" : String).isEmpty then ""
      else unquote_plus "80%7C123") = "80|123" := by decide
  simp only [bet_result_concat]
  rw [h1]
  show String.join [Nat.repr uid, "80|123", "", rid, gid, pk] = _
  simp only [String.join, List.foldl]
  rw [str_empty_append, str_append_empty]

/-- Claim C5: the betResult digest for `bet="80%7C123"` is the MD5 of the
canonical concatenation containing the URL-decoded `"80|123"`, not the
encoded form (the two concatenations always differ), so whenever MD5
distinguishes the two concatenations (case-insensitively), a digest
computed over the still-encoded string fails verification — for every
user id, round id, game id and secret. -/
theorem C5_decode_before_hash (uid : Nat) (rid gid pk : String) :
    hash_for_bet_result uid (some "80%7C123") none none rid gid pk
      = md5_hex (Nat.repr uid ++ "80|123" ++ rid ++ gid ++ pk) ∧
    Nat.repr uid ++ "80%7C123" ++ rid ++ gid ++ pk
      ≠ Nat.repr uid ++ "80|123" ++ rid ++ gid ++ pk ∧
    (strLower (md5_hex (Nat.repr uid ++ "80%7C123" ++ rid ++ gid ++ pk))
        ≠ strLower (md5_hex (Nat.repr uid ++ "80|123" ++ rid ++ gid ++ pk)) →
      verify_bet_hash uid (some "80%7C123") none none rid gid pk
        (md5_hex (Nat.repr uid ++ "80%7C123" ++ rid ++ gid ++ pk)) = false) := by
  refine ⟨?_, ?_, ?_⟩
  · unfold hash_for_bet_result
    rw [bet_concat_80_7C_123]
  · intro h
    have hl := congrArg String.length h
    simp only [str_length_append] at hl
    rw [show (("80%7C123" : String)).length = 8 from rfl,
      show (("80|123" : String)).length = 6 from rfl] at hl
    omega
  · intro hne
    unfold verify_bet_hash hash_for_bet_result
    rw [bet_concat_80_7C_123]
    exact beq_eq_false_iff_ne.mpr (Ne.symm hne)

theorem C5_witness :
    strLower (md5_hex (Nat.repr 7 ++ "80%7C123" ++ "r1" ++ "g1" ++ "sec"))
        ≠ strLower (md5_hex (Nat.repr 7 ++ "80|123" ++ "r1" ++ "g1" ++ "sec")) ∧
    verify_bet_hash 7 (some "80%7C123") none none "r1" "g1" "sec"
        (md5_hex (Nat.repr 7 ++ "80%7C123" ++ "r1" ++ "g1" ++ "sec")) = false :=
  ⟨by decide, (C5_decode_before_hash 7 "r1" "g1" "sec").2.2 (by decide)⟩

/-! ### Wallet and journal lemmas -/

theorem find?_append_none {α : Type} (p : α → Bool) {l1 : List α} (l2 : List α)
    (h : l1.find? p = none) : (l1 ++ l2).find? p = l2.find? p := by
  induction l1 with
  | nil => rfl
  | cons x xs ih =>
    rw [List.cons_append]
    cases hp : p x with
    | true =>
      rw [List.find?_cons_of_pos _ hp] at h
      exact absurd h (by simp)
    | false =>
      have hp2 : ¬p x = true := by simp [hp]
      rw [List.find?_cons_of_neg _ hp2] at h
      rw [List.find?_cons_of_neg _ hp2]
      exact ih h

theorem getOrCreateWallet_journal (s : DBState) (uid : Nat) (cur : String) :
    (getOrCreateWallet s uid cur).1.journal = s.journal := by
  unfold getOrCreateWallet
  cases h : lookupWallet s uid cur <;> rfl

theorem getOrCreateWallet_nextTxn (s : DBState) (uid : Nat) (cur : String) :
    (getOrCreateWallet s uid cur).1.nextTransactionId = s.nextTransactionId := by
  unfold getOrCreateWallet
  cases h : lookupWallet s uid cur <;> rfl

theorem getOrCreateWallet_lookup (s : DBState) (uid : Nat) (cur : String) :
    lookupWallet (getOrCreateWallet s uid cur).1 uid cur
      = some (getOrCreateWallet s uid cur).2 := by
  unfold getOrCreateWallet
  cases h : lookupWallet s uid cur with
  | some w => exact h
  | none =>
    unfold lookupWallet at h ⊢
    rw [find?_append_none _ _ h]
    simp [List.find?]

theorem getOrCreateWallet_bal (s : DBState) (uid : Nat) (cur : String) :
    (getOrCreateWallet s uid cur).2.balanceC = wallet_cents s uid cur := by
  unfold getOrCreateWallet wallet_cents
  cases h : lookupWallet s uid cur <;> rfl

theorem wallet_cents_getOrCreate (s : DBState) (uid : Nat) (cur : String) :
    wallet_cents (getOrCreateWallet s uid cur).1 uid cur = wallet_cents s uid cur := by
  have h := getOrCreateWallet_lookup s uid cur
  unfold wallet_cents
  rw [h]
  exact getOrCreateWallet_bal s uid cur

/-! ### C4: refund's original-transaction lookup ignores the status -/

/-- Claim C4 (amended): for a refundBet with valid hash: if no journal
row of kind bet with the given casinoTransactionId exists for that player
and bank — regardless of status — the response is FAILED 302 and nothing
is written; if such a row exists (any status, `Processed` not required)
and the latest refund row for the key is `Processed`, no second credit
and no write occurs, but the stored outcome is not returned either:
building the success envelope raises a `TypeError` (`envelope_ok` has no
`response_inner_xml` parameter) and the callback escapes as an unhandled
transport-level error. -/
theorem C4_refund_requires_any_bet (cfg : BankCfg) (req : RefundReq)
    (faults : RefundFaults) (s : DBState)
    (hh : strLower (md5_hex (Nat.repr req.userId ++ req.casinoTransactionId ++
      cfg.passKey)) = strLower req.hash) :
    (s.journal.find? (fun t =>
        t.userId == req.userId &&
          t.externalTransactionId == req.casinoTransactionId &&
          t.transactionType == "bet" && t.bankId == req.bankId) = none →
      refund_bet cfg req faults s
        = (s, .failed 302 "ORIGINAL_TRANSACTION_NOT_FOUND")) ∧
    (∀ r, latestRefund (keyRows s req.userId req.bankId "refund"
        req.casinoTransactionId) = some r →
      strLower r.status = "processed" →
      (∃ o, s.journal.find? (fun t =>
        t.userId == req.userId &&
          t.externalTransactionId == req.casinoTransactionId &&
          t.transactionType == "bet" && t.bankId == req.bankId) = some o) →
      refund_bet cfg req faults s
        = (s, .httpError 500 "TypeError: envelope_ok")) := by
  have hguard : (strLower (md5_hex (Nat.repr req.userId ++
      req.casinoTransactionId ++ cfg.passKey)) == strLower req.hash) = true := by
    rw [hh]; exact beq_self_eq_true _
  constructor
  · intro hfind
    simp [refund_bet, hguard, hfind]
  · rintro r hlatest hst ⟨o, hfind⟩
    have hstb : (strLower r.status == "processed") = true := by
      rw [hst]; exact beq_self_eq_true _
    simp [refund_bet, hguard, hfind, hlatest, hstb]

theorem C4_witness :
    refund_bet sampleCfg ⟨6111, 42, "abc", md5_hex "42abcsec"⟩ RefundFaults.none
        DBState.empty
      = (DBState.empty, Resp.failed 302 "ORIGINAL_TRANSACTION_NOT_FOUND") ∧
    refund_bet sampleCfg ⟨6111, 42, "abc", md5_hex "42abcsec"⟩ RefundFaults.none
        ⟨[wallet42], [processedBet42, processedRefund42], 1, 2⟩
      = (⟨[wallet42], [processedBet42, processedRefund42], 1, 2⟩,
          Resp.httpError 500 "TypeError: envelope_ok") :=
  ⟨(C4_refund_requires_any_bet sampleCfg ⟨6111, 42, "abc", md5_hex "42abcsec"⟩
      RefundFaults.none DBState.empty (by decide)).1 (by decide),
   (C4_refund_requires_any_bet sampleCfg ⟨6111, 42, "abc", md5_hex "42abcsec"⟩
      RefundFaults.none ⟨[wallet42], [processedBet42, processedRefund42], 1, 2⟩
      (by decide)).2 processedRefund42 (by decide) (by decide)
      ⟨processedBet42, by decide⟩⟩

/-- Claim C4 counterexample: the journal holds exactly one bet row for
casinoTransactionId "abc" and its status is `Pending` (so no `Processed`
bet row exists), yet the valid-hash refund does not answer FAILED 302 —
the lookup never filters on status, so the code proceeds with a fresh
refund, commits a second journal row (the refund), and then crashes
building the success envelope. -/
theorem C4_counterexample :
    (⟨[wallet42], [pendingBet42], 1, 1⟩ : DBState).journal = [pendingBet42] ∧
    pendingBet42.transactionType = "bet" ∧ pendingBet42.status = "Pending" ∧
    (refund_bet sampleCfg ⟨6111, 42, "abc", md5_hex "42abcsec"⟩ RefundFaults.none
        ⟨[wallet42], [pendingBet42], 1, 1⟩).2
      ≠ Resp.failed 302 "ORIGINAL_TRANSACTION_NOT_FOUND" ∧
    (refund_bet sampleCfg ⟨6111, 42, "abc", md5_hex "42abcsec"⟩ RefundFaults.none
        ⟨[wallet42], [pendingBet42], 1, 1⟩).1.journal.length = 2 := by
  decide

/-! ### C6: malformed bet/win sides are skipped, not rejected -/

/-- Claim C6 (amended): betResult parses each present side as
`<minorUnits>|<externalTransactionId>`, but a present side whose amount
part is malformed (non-integer) is silently skipped rather than rejected
with BadFormat(400): with a valid hash, no journal row is written, the
balance is unchanged, and the callback answers a success envelope (still
echoing whatever external id could be parsed). -/
theorem C6_malformed_side_skipped (cfg : BankCfg) (req : BetResultReq)
    (faults : BetFaults) (s : DBState)
    (hpres : (optPresent req.bet || optPresent req.win) = true)
    (hbet : (parse_amount_and_ext req.bet).1 = none)
    (hwin : (parse_amount_and_ext req.win).1 = none)
    (hh : verify_bet_hash req.userId req.bet req.win req.isRoundFinished
      req.roundId req.gameId cfg.passKey req.hash = true)
    (hcommit : faults.commitFail = false) :
    (bet_result cfg req faults s).1.journal = s.journal ∧
    wallet_cents (bet_result cfg req faults s).1 req.userId (bankCurrency cfg)
      = wallet_cents s req.userId (bankCurrency cfg) ∧
    (bet_result cfg req faults s).2 = Resp.okBet
      (match (parse_amount_and_ext req.win).2 with
       | some e => e
       | none =>
         match (parse_amount_and_ext req.bet).2 with
         | some e => e
         | none => "")
      (wallet_cents s req.userId (bankCurrency cfg)) := by
  have h1 : (!optPresent req.bet && !optPresent req.win) = false := by
    cases hb : optPresent req.bet <;> simp_all
  have key : bet_result cfg req faults s
      = ((getOrCreateWallet s req.userId (bankCurrency cfg)).1,
         Resp.okBet
           (match (parse_amount_and_ext req.win).2 with
            | some e => e
            | none =>
              match (parse_amount_and_ext req.bet).2 with
              | some e => e
              | none => "")
           (wallet_cents (getOrCreateWallet s req.userId (bankCurrency cfg)).1
             req.userId (bankCurrency cfg))) := by
    simp [bet_result, h1, hh, betResultSettle, hbet, hwin, hcommit]
  rw [key]
  exact ⟨getOrCreateWallet_journal s req.userId (bankCurrency cfg),
    wallet_cents_getOrCreate s req.userId (bankCurrency cfg),
    by rw [wallet_cents_getOrCreate]⟩

theorem C6_witness :
    (bet_result sampleCfg ⟨6111, 5, "g1", "r1",
        hash_for_bet_result 5 (some "x|123") none none "r1" "g1" "sec",
        some "x|123", none, none⟩ BetFaults.none DBState.empty).1.journal = [] ∧
    (bet_result sampleCfg ⟨6111, 5, "g1", "r1",
        hash_for_bet_result 5 (some "x|123") none none "r1" "g1" "sec",
        some "x|123", none, none⟩ BetFaults.none DBState.empty).2
      = Resp.okBet "123" 0 :=
  have h := C6_malformed_side_skipped sampleCfg ⟨6111, 5, "g1", "r1",
    hash_for_bet_result 5 (some "x|123") none none "r1" "g1" "sec",
    some "x|123", none, none⟩ BetFaults.none DBState.empty (by decide) (by decide)
    rfl (by simp [verify_bet_hash, sampleCfg]) rfl
  ⟨h.1, h.2.2⟩

/-- Claim C6 counterexample: `bet="x|123"` is present and malformed (its
amount part is not an integer), the hash is valid, yet the callback does
not answer a BadFormat(400) failure — it answers a success envelope
(RESULT=OK, echoing the parsed external id "123" and the unchanged
balance), silently skipping the side. -/
theorem C6_counterexample :
    optPresent (some "x|123") = true ∧
    (parse_amount_and_ext (some "x|123")).1 = none ∧
    (bet_result sampleCfg ⟨6111, 5, "g1", "r1",
        hash_for_bet_result 5 (some "x|123") none none "r1" "g1" "sec",
        some "x|123", none, none⟩ BetFaults.none DBState.empty).2
      = Resp.okBet "123" 0 ∧
    Resp.isFailed (bet_result sampleCfg ⟨6111, 5, "g1", "r1",
        hash_for_bet_result 5 (some "x|123") none none "r1" "g1" "sec",
        some "x|123", none, none⟩ BetFaults.none DBState.empty).2 = false := by
  decide

/-! ### C10: refund success responses cannot be emitted at all -/

/-- Claim C10 (code bug): the claim — every successful refundBet response
carries the gateway's internally generated journal transaction id —
matches `refund_bet`'s own documented response format (its docstring
shows `RESULT=OK` with `EXTSYSTEMTRANSACTIONID`, and the inner XML the
code builds does embed `existing_refund[0]` / `refund_tx.transaction_id`,
the internal autoincrement ids), but the code can emit no successful
refund response at all: both success paths call `envelope_ok` with the
nonexistent `response_inner_xml` keyword and raise an uncaught
`TypeError`.  Evaluated at concrete failing inputs: the fresh path first
commits the `Processed` refund row and the credit, then fails with a
transport-level error instead of the OK envelope; the replay path fails
the same way with the state unchanged. -/
theorem C10_refund_success_paths_crash :
    refund_bet sampleCfg ⟨6111, 42, "abc", md5_hex "42abcsec"⟩ RefundFaults.none
        ⟨[wallet42], [processedBet42], 1, 1⟩
      = (applyDeltaById (insertTxn ⟨[wallet42], [processedBet42], 1, 1⟩
          (fun tid =>
            ⟨tid, 42, 0, 6111, "refund", 80, "Processed", "abc", "r1", "g1"⟩))
          0 80,
         Resp.httpError 500 "TypeError: envelope_ok") ∧
    refund_bet sampleCfg ⟨6111, 42, "abc", md5_hex "42abcsec"⟩ RefundFaults.none
        ⟨[wallet42], [processedBet42, processedRefund42], 1, 2⟩
      = (⟨[wallet42], [processedBet42, processedRefund42], 1, 2⟩,
         Resp.httpError 500 "TypeError: envelope_ok") := by
  decide

/-! ### C3: a digest mismatch always rejects with 401 and writes nothing -/

/-- Claim C3: for every callback kind, when the caller-supplied digest
does not equal (case-insensitively) the MD5 of that kind's canonical
field concatenation followed by the bank secret, the callback answers a
FAILED envelope with the InvalidHash code 401 and performs no journal and
no wallet writes — the state is returned unchanged.  (For each kind the
claim presupposes the callback reaches hash verification: parameters
present, and the xml dialect for authenticate.) -/
theorem C3_hash_mismatch_rejects (cfg : BankCfg) (players : List Player)
    (sessions : List UserSession) (decodeTok : String → Option TokenPayload)
    (s : DBState) (breq : BetResultReq) (bfaults : BetFaults)
    (rreq : RefundReq) (rfaults : RefundFaults) (uid : Nat)
    (h token thash : String) :
    (strLower (if cfg.protocol.isEmpty then "xml" else cfg.protocol) = "xml" →
      strLower (md5_hex (token ++ cfg.passKey)) ≠ strLower thash →
      authenticate cfg decodeTok sessions players token thash s
        = (s, .failed 401 "INVALID_HASH")) ∧
    (h.isEmpty = false →
      strLower (md5_hex (Nat.repr uid ++ cfg.passKey)) ≠ strLower h →
      balance cfg (some uid) (some h) s = (s, .failed 401 "INVALID_HASH")) ∧
    (h.isEmpty = false →
      strLower (md5_hex (Nat.repr uid ++ cfg.passKey)) ≠ strLower h →
      account_info cfg players (some uid) (some h) s
        = (s, .failed 401 "INVALID_HASH")) ∧
    ((optPresent breq.bet || optPresent breq.win) = true →
      strLower (hash_for_bet_result breq.userId breq.bet breq.win
        breq.isRoundFinished breq.roundId breq.gameId cfg.passKey)
        ≠ strLower breq.hash →
      bet_result cfg breq bfaults s = (s, .failed 401 "invalid hash")) ∧
    (strLower (md5_hex (Nat.repr rreq.userId ++ rreq.casinoTransactionId ++
        cfg.passKey)) ≠ strLower rreq.hash →
      refund_bet cfg rreq rfaults s = (s, .failed 401 "invalid hash")) ∧
    (token.isEmpty = false → thash.isEmpty = false →
      strLower (md5_hex (token ++ cfg.passKey)) ≠ strLower thash →
      bonus_release cfg decodeTok (some token) (some thash) s
        = (s, .failed 401 "invalid hash")) := by
  refine ⟨?_, ?_, ?_, ?_, ?_, ?_⟩
  · intro hproto hne
    have hhot : hash_ok_token token cfg.passKey (some thash) = false := by
      simp only [hash_ok_token]
      split
      · rfl
      · exact beq_eq_false_iff_ne.mpr hne
    simp [authenticate, hproto, hhot]
  · intro hEmpty hne
    have hhu : hash_ok_user uid cfg.passKey (some h) = false := by
      simp only [hash_ok_user, hEmpty, Bool.false_eq_true, if_false]
      exact beq_eq_false_iff_ne.mpr hne
    simp [balance, optPresent, hEmpty, hhu]
  · intro hEmpty hne
    have hhu : hash_ok_user uid cfg.passKey (some h) = false := by
      simp only [hash_ok_user, hEmpty, Bool.false_eq_true, if_false]
      exact beq_eq_false_iff_ne.mpr hne
    simp [account_info, optPresent, hEmpty, hhu]
  · intro hpres hne
    have h1 : (!optPresent breq.bet && !optPresent breq.win) = false := by
      cases hb : optPresent breq.bet <;> simp_all
    have hv : verify_bet_hash breq.userId breq.bet breq.win breq.isRoundFinished
        breq.roundId breq.gameId cfg.passKey breq.hash = false :=
      beq_eq_false_iff_ne.mpr hne
    simp [bet_result, h1, hv]
  · intro hne
    have hg : (strLower (md5_hex (Nat.repr rreq.userId ++
        rreq.casinoTransactionId ++ cfg.passKey)) == strLower rreq.hash) = false :=
      beq_eq_false_iff_ne.mpr hne
    simp [refund_bet, hg]
  · intro htok hth hne
    have hhot : hash_ok_token token cfg.passKey (some thash) = false := by
      simp only [hash_ok_token]
      split
      · rfl
      · exact beq_eq_false_iff_ne.mpr hne
    simp [bonus_release, optPresent, htok, hth, hhot]

theorem C3_witness :
    authenticate sampleCfg (fun _ => none) [] [] "tok" "00" DBState.empty
      = (DBState.empty, Resp.failed 401 "INVALID_HASH") ∧
    balance sampleCfg (some 1) (some "00") DBState.empty
      = (DBState.empty, Resp.failed 401 "INVALID_HASH") ∧
    account_info sampleCfg [] (some 1) (some "00") DBState.empty
      = (DBState.empty, Resp.failed 401 "INVALID_HASH") ∧
    bet_result sampleCfg ⟨6111, 1, "g", "r", "00", some "80|x", none, none⟩
        BetFaults.none DBState.empty
      = (DBState.empty, Resp.failed 401 "invalid hash") ∧
    refund_bet sampleCfg ⟨6111, 1, "abc", "00"⟩ RefundFaults.none DBState.empty
      = (DBState.empty, Resp.failed 401 "invalid hash") ∧
    bonus_release sampleCfg (fun _ => none) (some "tok") (some "00") DBState.empty
      = (DBState.empty, Resp.failed 401 "invalid hash") :=
  have hc := C3_hash_mismatch_rejects sampleCfg [] [] (fun _ => none)
    DBState.empty ⟨6111, 1, "g", "r", "00", some "80|x", none, none⟩
    BetFaults.none ⟨6111, 1, "abc", "00"⟩ RefundFaults.none 1 "00" "tok" "00"
  ⟨hc.1 (by decide) (by decide),
   hc.2.1 rfl (by decide),
   hc.2.2.1 rfl (by decide),
   hc.2.2.2.1 (by decide) (by decide),
   hc.2.2.2.2.1 (by decide),
   hc.2.2.2.2.2 rfl rfl (by decide)⟩

/-! ### C1: sequential idempotency of bet settlement -/

theorem optPresent_of_parse_amt {o : Option String} {amt : Int}
    {ext : Option String} (h : parse_amount_and_ext o = (some amt, ext)) :
    optPresent o = true := by
  cases o with
  | none => simp [parse_amount_and_ext] at h
  | some v =>
    cases hv : v.isEmpty
    · simp [optPresent, hv]
    · simp [parse_amount_and_ext, hv] at h

theorem dupKey_journal_congr {s1 s2 : DBState} (h : s1.journal = s2.journal)
    (uid bank : Nat) (ty ext : String) :
    dupKey s1 uid bank ty ext = dupKey s2 uid bank ty ext := by
  unfold dupKey keyRows
  rw [h]

theorem lookupWallet_insertTxn (s : DBState) (mk : Nat → GameplayTransaction)
    (uid : Nat) (cur : String) :
    lookupWallet (insertTxn s mk) uid cur = lookupWallet s uid cur := rfl

theorem find?_map_of_pred_inv {α : Type} (p : α → Bool) (f : α → α)
    (hf : ∀ a, p (f a) = p a) (l : List α) :
    (l.map f).find? p = (l.find? p).map f := by
  induction l with
  | nil => rfl
  | cons x xs ih =>
    rw [List.map_cons]
    cases hp : p x
    · have hp2 : ¬p (f x) = true := by rw [hf]; simp [hp]
      have hp3 : ¬p x = true := by simp [hp]
      rw [List.find?_cons_of_neg _ hp2, List.find?_cons_of_neg _ hp3, ih]
    · rw [List.find?_cons_of_pos _ (by rw [hf]; exact hp),
        List.find?_cons_of_pos _ hp]
      rfl

theorem lookupWallet_applyDelta (s : DBState) (wid : Nat) (d : Int)
    (uid : Nat) (cur : String) :
    lookupWallet (applyDeltaById s wid d) uid cur
      = (lookupWallet s uid cur).map (fun w =>
          if w.walletId == wid then { w with balanceC := w.balanceC + d }
          else w) := by
  unfold lookupWallet applyDeltaById
  exact find?_map_of_pred_inv _ _
    (fun a => by cases ha : a.walletId == wid <;> simp [ha]) s.wallets

theorem wallet_cents_applyDelta {s : DBState} {uid : Nat} {cur : String}
    {w : Wallet} (hl : lookupWallet s uid cur = some w) (d : Int) :
    wallet_cents (applyDeltaById s w.walletId d) uid cur = w.balanceC + d := by
  unfold wallet_cents
  rw [lookupWallet_applyDelta, hl]
  simp

theorem keyRows_eq_nil_of_not_dup {s : DBState} {uid bank : Nat}
    {ty ext : String} (h : dupKey s uid bank ty ext = false) :
    keyRows s uid bank ty ext = [] := by
  unfold dupKey at h
  cases hk : keyRows s uid bank ty ext with
  | nil => rfl
  | cons x xs => rw [hk] at h; simp at h

theorem betFreshState_cents (cfg : BankCfg) (req : BetResultReq) (amt : Int)
    (ext : String) (s : DBState) :
    wallet_cents (betFreshState cfg req amt ext s) req.userId (bankCurrency cfg)
      = wallet_cents s req.userId (bankCurrency cfg) - amt := by
  unfold betFreshState
  have hl : lookupWallet
      (insertTxn (getOrCreateWallet s req.userId (bankCurrency cfg)).1
        (fun tid =>
          ⟨tid, req.userId,
            (getOrCreateWallet s req.userId (bankCurrency cfg)).2.walletId,
            req.bankId, "bet", amt, "Processed", ext, req.roundId, req.gameId⟩))
      req.userId (bankCurrency cfg)
      = some (getOrCreateWallet s req.userId (bankCurrency cfg)).2 := by
    rw [lookupWallet_insertTxn]
    exact getOrCreateWallet_lookup s req.userId (bankCurrency cfg)
  rw [wallet_cents_applyDelta hl (-amt), getOrCreateWallet_bal]
  omega

theorem betFreshState_dup (cfg : BankCfg) (req : BetResultReq) (amt : Int)
    (ext : String) (s : DBState) :
    dupKey (betFreshState cfg req amt ext s) req.userId req.bankId "bet" ext
      = true := by
  unfold dupKey keyRows betFreshState applyDeltaById insertTxn
  simp [List.filter_append, List.isEmpty_iff]

theorem betFreshState_count (cfg : BankCfg) (req : BetResultReq) (amt : Int)
    (ext : String) (s : DBState)
    (hdup : dupKey s req.userId req.bankId "bet" ext = false) :
    processedCount (betFreshState cfg req amt ext s)
      req.userId req.bankId "bet" ext = 1 := by
  have hk := keyRows_eq_nil_of_not_dup hdup
  unfold keyRows at hk
  unfold processedCount keyRows betFreshState applyDeltaById insertTxn
  rw [getOrCreateWallet_journal, List.filter_append, hk]
  simp

theorem bet_result_fresh_bet (cfg : BankCfg) (req : BetResultReq) (amt : Int)
    (ext : String) (s : DBState)
    (hwin : req.win = none)
    (hbet : parse_amount_and_ext req.bet = (some amt, some ext))
    (hh : verify_bet_hash req.userId req.bet req.win req.isRoundFinished
      req.roundId req.gameId cfg.passKey req.hash = true)
    (hdup : dupKey s req.userId req.bankId "bet" ext = false) :
    bet_result cfg req BetFaults.none s
      = (betFreshState cfg req amt ext s,
         Resp.okBet ext (wallet_cents s req.userId (bankCurrency cfg) - amt)) := by
  have hpres : optPresent req.bet = true := optPresent_of_parse_amt hbet
  have h1 : (!optPresent req.bet && !optPresent req.win) = false := by
    simp [hpres]
  have hwp : parse_amount_and_ext req.win = (none, none) := by rw [hwin]; rfl
  have hdup1 : dupKey (getOrCreateWallet s req.userId (bankCurrency cfg)).1
      req.userId req.bankId "bet" ext = false := by
    rw [dupKey_journal_congr
      (getOrCreateWallet_journal s req.userId (bankCurrency cfg))]
    exact hdup
  have key : bet_result cfg req BetFaults.none s
      = (betFreshState cfg req amt ext s,
         Resp.okBet ext (wallet_cents (betFreshState cfg req amt ext s)
           req.userId (bankCurrency cfg))) := by
    simp [bet_result, h1, hh, betResultSettle, hbet, hwp, betDebitBlock,
      BetFaults.none, hdup1, betFreshState]
  rw [key, betFreshState_cents]

theorem bet_result_replay_bet (cfg : BankCfg) (req : BetResultReq) (amt : Int)
    (ext : String) (s1 : DBState)
    (hwin : req.win = none)
    (hbet : parse_amount_and_ext req.bet = (some amt, some ext))
    (hh : verify_bet_hash req.userId req.bet req.win req.isRoundFinished
      req.roundId req.gameId cfg.passKey req.hash = true)
    (hdup : dupKey s1 req.userId req.bankId "bet" ext = true) :
    bet_result cfg req BetFaults.none s1
      = (s1, Resp.okBet ext (wallet_cents s1 req.userId (bankCurrency cfg))) := by
  have hpres : optPresent req.bet = true := optPresent_of_parse_amt hbet
  have h1 : (!optPresent req.bet && !optPresent req.win) = false := by
    simp [hpres]
  have hwp : parse_amount_and_ext req.win = (none, none) := by rw [hwin]; rfl
  have hdup1 : dupKey (getOrCreateWallet s1 req.userId (bankCurrency cfg)).1
      req.userId req.bankId "bet" ext = true := by
    rw [dupKey_journal_congr
      (getOrCreateWallet_journal s1 req.userId (bankCurrency cfg))]
    exact hdup
  simp [bet_result, h1, hh, betResultSettle, hbet, hwp, betDebitBlock,
    BetFaults.none, hdup1]

/-- Claim C1: for a valid bet settlement callback (well-formed
`minorUnits|externalTransactionId` bet string, correct hash) issued
`n + 1` times sequentially against a state with no prior row for the
dedupe key: the committed state after every number of repeats equals the
state after the first call — exactly one wallet balance mutation (the
balance is the initial balance minus the bet, for every n) and exactly
one `Processed` journal row for the dedupe key — and every repeat returns
the same success response as the first: the same EXTSYSTEMTRANSACTIONID
(the bet's external id) and the same final BALANCE. -/
theorem C1_bet_settlement_idempotent (cfg : BankCfg) (req : BetResultReq)
    (amt : Int) (ext : String) (s0 : DBState)
    (hwin : req.win = none)
    (hbet : parse_amount_and_ext req.bet = (some amt, some ext))
    (hh : verify_bet_hash req.userId req.bet req.win req.isRoundFinished
      req.roundId req.gameId cfg.passKey req.hash = true)
    (hdup : dupKey s0 req.userId req.bankId "bet" ext = false) (n : Nat) :
    iterateCalls (bet_result cfg req BetFaults.none) n s0
      = (betFreshState cfg req amt ext s0,
         Resp.okBet ext (wallet_cents s0 req.userId (bankCurrency cfg) - amt)) ∧
    processedCount (iterateCalls (bet_result cfg req BetFaults.none) n s0).1
      req.userId req.bankId "bet" ext = 1 ∧
    wallet_cents (iterateCalls (bet_result cfg req BetFaults.none) n s0).1
      req.userId (bankCurrency cfg)
      = wallet_cents s0 req.userId (bankCurrency cfg) - amt ∧
    (iterateCalls (bet_result cfg req BetFaults.none) n s0).2
      = Resp.okBet ext (wallet_cents s0 req.userId (bankCurrency cfg) - amt) := by
  have hfresh := bet_result_fresh_bet cfg req amt ext s0 hwin hbet hh hdup
  have hbal := betFreshState_cents cfg req amt ext s0
  have hdupS1 := betFreshState_dup cfg req amt ext s0
  have hrep : bet_result cfg req BetFaults.none (betFreshState cfg req amt ext s0)
      = (betFreshState cfg req amt ext s0,
         Resp.okBet ext (wallet_cents s0 req.userId (bankCurrency cfg) - amt)) := by
    rw [bet_result_replay_bet cfg req amt ext _ hwin hbet hh hdupS1, hbal]
  have hiter : ∀ m, iterateCalls (bet_result cfg req BetFaults.none) m
      (betFreshState cfg req amt ext s0)
      = (betFreshState cfg req amt ext s0,
         Resp.okBet ext (wallet_cents s0 req.userId (bankCurrency cfg) - amt)) := by
    intro m
    induction m with
    | zero => exact hrep
    | succ m ih =>
      show iterateCalls (bet_result cfg req BetFaults.none) m
        (bet_result cfg req BetFaults.none (betFreshState cfg req amt ext s0)).1 = _
      rw [hrep]
      exact ih
  have hmain : iterateCalls (bet_result cfg req BetFaults.none) n s0
      = (betFreshState cfg req amt ext s0,
         Resp.okBet ext (wallet_cents s0 req.userId (bankCurrency cfg) - amt)) := by
    cases n with
    | zero => exact hfresh
    | succ m =>
      show iterateCalls (bet_result cfg req BetFaults.none) m
        (bet_result cfg req BetFaults.none s0).1 = _
      rw [hfresh]
      exact hiter m
  refine ⟨hmain, ?_, ?_, ?_⟩
  · rw [hmain]
    exact betFreshState_count cfg req amt ext s0 hdup
  · rw [hmain]
    exact hbal
  · rw [hmain]

theorem C1_witness :
    iterateCalls (bet_result sampleCfg ⟨6111, 42, "g1", "r1",
        hash_for_bet_result 42 (some "80|abc") none none "r1" "g1" "sec",
        some "80|abc", none, none⟩ BetFaults.none) 2 DBState.empty
      = (betFreshState sampleCfg ⟨6111, 42, "g1", "r1",
          hash_for_bet_result 42 (some "80|abc") none none "r1" "g1" "sec",
          some "80|abc", none, none⟩ 80 "abc" DBState.empty,
         Resp.okBet "abc" (-80)) ∧
    processedCount (iterateCalls (bet_result sampleCfg ⟨6111, 42, "g1", "r1",
        hash_for_bet_result 42 (some "80|abc") none none "r1" "g1" "sec",
        some "80|abc", none, none⟩ BetFaults.none) 2 DBState.empty).1
      42 6111 "bet" "abc" = 1 :=
  have h := C1_bet_settlement_idempotent sampleCfg ⟨6111, 42, "g1", "r1",
    hash_for_bet_result 42 (some "80|abc") none none "r1" "g1" "sec",
    some "80|abc", none, none⟩ 80 "abc" DBState.empty rfl (by decide)
    (by simp [verify_bet_hash, sampleCfg]) rfl 2
  ⟨h.1, h.2.1⟩

/-! ### C2: the ledger invariant -/

theorem foldr_signed_append (l1 l2 : List GameplayTransaction) :
    (l1 ++ l2).foldr (fun t acc => signedC t + acc) 0
      = l1.foldr (fun t acc => signedC t + acc) 0
        + l2.foldr (fun t acc => signedC t + acc) 0 := by
  induction l1 with
  | nil => simp
  | cons x xs ih =>
    simp only [List.cons_append, List.foldr_cons, ih]
    omega

theorem sumProcessed_insert (s : DBState) (mk : Nat → GameplayTransaction)
    (wid : Nat) :
    sumProcessed (insertTxn s mk) wid
      = sumProcessed s wid + contrib (mk s.nextTransactionId) wid := by
  unfold sumProcessed insertTxn contrib
  rw [List.filter_append, foldr_signed_append]
  cases hp : ((mk s.nextTransactionId).walletId == wid &&
      (mk s.nextTransactionId).status == "Processed") <;>
    simp [List.filter, hp]

theorem sumProcessed_applyDelta (s : DBState) (wid : Nat) (d : Int)
    (wid2 : Nat) :
    sumProcessed (applyDeltaById s wid d) wid2 = sumProcessed s wid2 := rfl

theorem sumProcessed_congr {s1 s2 : DBState} (h : s1.journal = s2.journal)
    (wid : Nat) : sumProcessed s1 wid = sumProcessed s2 wid := by
  unfold sumProcessed
  rw [h]

theorem inv_getOrCreate (s : DBState) (uid : Nat) (cur : String)
    (hWF : WF s) (hInv : Inv s) :
    Inv (getOrCreateWallet s uid cur).1 ∧ WF (getOrCreateWallet s uid cur).1 ∧
      (getOrCreateWallet s uid cur).2 ∈ (getOrCreateWallet s uid cur).1.wallets := by
  cases h : lookupWallet s uid cur with
  | some w =>
    have he : getOrCreateWallet s uid cur = (s, w) := by
      unfold getOrCreateWallet
      rw [h]
    rw [he]
    exact ⟨hInv, hWF, List.mem_of_find?_eq_some h⟩
  | none =>
    have he : getOrCreateWallet s uid cur
        = (withNewWallet s uid cur, createdWallet s uid cur) := by
      unfold getOrCreateWallet withNewWallet createdWallet
      rw [h]
    rw [he]
    have hnil : s.journal.filter (fun t =>
        t.walletId == s.nextWalletId && t.status == "Processed") = [] := by
      rw [List.filter_eq_nil_iff]
      intro t ht
      have hlt := hWF.2 t ht
      simp [Nat.ne_of_lt hlt]
    have hzero : sumProcessed s s.nextWalletId = 0 := by
      unfold sumProcessed
      rw [hnil]
      rfl
    refine ⟨?_, ⟨?_, ?_⟩, ?_⟩
    · intro w hw
      rw [sumProcessed_congr (rfl : (withNewWallet s uid cur).journal = s.journal)]
      rcases List.mem_append.mp hw with h1 | h2
      · exact hInv w h1
      · have hw0 : w = createdWallet s uid cur := by simpa using h2
        subst hw0
        exact hzero.symm
    · intro w hw
      rcases List.mem_append.mp hw with h1 | h2
      · exact Nat.lt_succ_of_lt (hWF.1 w h1)
      · have hw0 : w = createdWallet s uid cur := by simpa using h2
        subst hw0
        exact Nat.lt_succ_self _
    · intro t ht
      exact Nat.lt_succ_of_lt (hWF.2 t ht)
    · exact List.mem_append.mpr (Or.inr (by simp))

theorem inv_insert_apply (s : DBState) (mk : Nat → GameplayTransaction)
    (wid : Nat) (d : Int)
    (hwid_lt : wid < s.nextWalletId)
    (hrow : (mk s.nextTransactionId).walletId = wid)
    (hst : (mk s.nextTransactionId).status = "Processed")
    (hd : d = signedC (mk s.nextTransactionId))
    (hWF : WF s) (hInv : Inv s) :
    Inv (applyDeltaById (insertTxn s mk) wid d) ∧
      WF (applyDeltaById (insertTxn s mk) wid d) := by
  constructor
  · intro u hu
    rcases List.mem_map.mp hu with ⟨v, hv, rfl⟩
    have hvInv := hInv v hv
    rcases Bool.eq_false_or_eq_true (v.walletId == wid) with hb | hb
    · have heq : v.walletId = wid := eq_of_beq hb
      rw [if_pos hb]
      show v.balanceC + d
        = sumProcessed (applyDeltaById (insertTxn s mk) wid d) v.walletId
      rw [sumProcessed_applyDelta, sumProcessed_insert]
      unfold contrib
      rw [if_pos (by rw [hrow, heq, hst]; simp)]
      rw [← hd, hvInv]
    · have hbne : v.walletId ≠ wid := by
        intro hcon
        rw [hcon] at hb
        simp at hb
      rw [if_neg (by simp [hb])]
      show v.balanceC
        = sumProcessed (applyDeltaById (insertTxn s mk) wid d) v.walletId
      rw [sumProcessed_applyDelta, sumProcessed_insert]
      unfold contrib
      rw [if_neg (by rw [hrow]; simp [Ne.symm hbne])]
      simpa using hvInv
  · constructor
    · intro u hu
      rcases List.mem_map.mp hu with ⟨v, hv, rfl⟩
      have hlt := hWF.1 v hv
      rcases Bool.eq_false_or_eq_true (v.walletId == wid) with hb | hb
      · rw [if_pos hb]
        exact hlt
      · rw [if_neg (by simp [hb])]
        exact hlt
    · intro t ht
      rcases List.mem_append.mp ht with h1 | h2
      · exact hWF.2 t h1
      · have ht0 : t = mk s.nextTransactionId := by simpa using h2
        subst ht0
        rw [hrow]
        exact hwid_lt

theorem inv_insert_contrib_zero (s : DBState) (mk : Nat → GameplayTransaction)
    (hzero : ∀ wid, contrib (mk s.nextTransactionId) wid = 0)
    (hwlt : (mk s.nextTransactionId).walletId < s.nextWalletId)
    (hWF : WF s) (hInv : Inv s) :
    Inv (insertTxn s mk) ∧ WF (insertTxn s mk) := by
  refine ⟨?_, ⟨?_, ?_⟩⟩
  · intro u hu
    have hu' : u ∈ s.wallets := hu
    rw [show (insertTxn s mk).wallets = s.wallets from rfl] at hu
    have := hInv u hu
    rw [sumProcessed_insert, hzero]
    simpa using this
  · intro u hu
    exact hWF.1 u hu
  · intro t ht
    rcases List.mem_append.mp ht with h1 | h2
    · exact hWF.2 t h1
    · have ht0 : t = mk s.nextTransactionId := by simpa using h2
      subst ht0
      exact hwlt

theorem betDebitBlock_error {req : BetResultReq} {faults : BetFaults}
    {committed working : DBState} {w : Wallet} {amt : Int} {ext : String}
    {st : DBState × Resp}
    (h : betDebitBlock req faults committed working w amt ext = .error st) :
    st.1 = committed := by
  unfold betDebitBlock at h
  by_cases hf : faults.betFail = true
  · rw [if_pos hf] at h
    cases h
    rfl
  · rw [if_neg hf] at h
    by_cases hd : dupKey working req.userId req.bankId "bet" ext = true
    · rw [if_pos hd] at h
      exact absurd h (by simp)
    · rw [if_neg hd] at h
      exact absurd h (by simp)

theorem betDebitBlock_ok {req : BetResultReq} {faults : BetFaults}
    {committed working : DBState} {w : Wallet} {amt : Int} {ext : String}
    {working2 : DBState}
    (h : betDebitBlock req faults committed working w amt ext = .ok working2) :
    working2 = committed ∨
      working2 = applyDeltaById (insertTxn working (fun tid =>
        ⟨tid, req.userId, w.walletId, req.bankId, "bet", amt, "Processed", ext,
          req.roundId, req.gameId⟩)) w.walletId (-amt) := by
  unfold betDebitBlock at h
  by_cases hf : faults.betFail = true
  · rw [if_pos hf] at h
    exact absurd h (by simp)
  · rw [if_neg hf] at h
    by_cases hd : dupKey working req.userId req.bankId "bet" ext = true
    · rw [if_pos hd] at h
      cases h
      exact Or.inl rfl
    · rw [if_neg hd] at h
      cases h
      exact Or.inr rfl

theorem winCreditBlock_error {req : BetResultReq} {faults : BetFaults}
    {committed working : DBState} {w : Wallet} {amt : Int} {ext : String}
    {st : DBState × Resp}
    (h : winCreditBlock req faults committed working w amt ext = .error st) :
    st.1 = committed := by
  simp only [winCreditBlock] at h
  by_cases hf : faults.winFail = true
  · rw [if_pos hf] at h
    cases h
    rfl
  · rw [if_neg hf] at h
    cases hlk : lookupWalletById working w.walletId with
    | none =>
      rw [hlk] at h
      cases h
      rfl
    | some w2 =>
      rw [hlk] at h
      dsimp only at h
      by_cases hd : dupKey working req.userId req.bankId "win" ext = true
      · rw [if_pos hd] at h
        exact absurd h (by simp)
      · rw [if_neg hd] at h
        exact absurd h (by simp)

theorem winCreditBlock_ok {req : BetResultReq} {faults : BetFaults}
    {committed working : DBState} {w : Wallet} {amt : Int} {ext : String}
    {working2 : DBState}
    (h : winCreditBlock req faults committed working w amt ext = .ok working2) :
    working2 = committed ∨
      ∃ w2, lookupWalletById working w.walletId = some w2 ∧
        ((0 < amt ∧ working2 = applyDeltaById (insertTxn working (fun tid =>
            ⟨tid, req.userId, w2.walletId, req.bankId, "win", amt, "Processed",
              ext, req.roundId, req.gameId⟩)) w2.walletId amt) ∨
         (¬0 < amt ∧ working2 = insertTxn working (fun tid =>
            ⟨tid, req.userId, w2.walletId, req.bankId, "win", amt, "Processed",
              ext, req.roundId, req.gameId⟩))) := by
  simp only [winCreditBlock] at h
  by_cases hf : faults.winFail = true
  · rw [if_pos hf] at h
    exact absurd h (by simp)
  · rw [if_neg hf] at h
    cases hlk : lookupWalletById working w.walletId with
    | none =>
      rw [hlk] at h
      exact absurd h (by simp)
    | some w2 =>
      rw [hlk] at h
      dsimp only at h
      by_cases hd : dupKey working req.userId req.bankId "win" ext = true
      · rw [if_pos hd] at h
        cases h
        exact Or.inl rfl
      · rw [if_neg hd] at h
        by_cases hp : (0 : Int) < amt
        · rw [if_pos hp] at h
          cases h
          exact Or.inr ⟨w2, rfl, Or.inl ⟨hp, rfl⟩⟩
        · rw [if_neg hp] at h
          cases h
          exact Or.inr ⟨w2, rfl, Or.inr ⟨hp, rfl⟩⟩

theorem inv_winCreditBlock_ok {req : BetResultReq} {faults : BetFaults}
    {committed working : DBState} {w : Wallet} {amt : Int} {ext : String}
    {working2 : DBState}
    (h : winCreditBlock req faults committed working w amt ext = .ok working2)
    (hge : 0 ≤ amt)
    (hInvC : Inv committed) (hWFC : WF committed)
    (hInvW : Inv working) (hWFW : WF working) :
    Inv working2 ∧ WF working2 := by
  rcases winCreditBlock_ok h with rfl | ⟨w2, hlk, hcase⟩
  · exact ⟨hInvC, hWFC⟩
  · have hmem2 : w2 ∈ working.wallets := List.mem_of_find?_eq_some hlk
    rcases hcase with ⟨hpos, rfl⟩ | ⟨hneg, rfl⟩
    · exact inv_insert_apply working _ w2.walletId amt (hWFW.1 w2 hmem2) rfl rfl
        (by unfold signedC; dsimp only; rw [if_neg (by decide)]) hWFW hInvW
    · have hz : amt = 0 := le_antisymm (not_lt.mp hneg) hge
      subst hz
      exact inv_insert_contrib_zero working _
        (by
          intro wid
          unfold contrib
          split
          · unfold signedC
            dsimp only
            rw [if_neg (by decide)]
          · rfl)
        (hWFW.1 w2 hmem2) hWFW hInvW

theorem inv_betResultSettle (cfg : BankCfg) (req : BetResultReq)
    (faults : BetFaults) (s : DBState) (hInv : Inv s) (hWF : WF s)
    (hnn : ∀ amt ext, parse_amount_and_ext req.win = (some amt, some ext) →
      0 ≤ amt) :
    Inv (betResultSettle cfg req faults s).1 ∧
      WF (betResultSettle cfg req faults s).1 := by
  obtain ⟨hInv1, hWF1, hmem1⟩ :=
    inv_getOrCreate s req.userId (bankCurrency cfg) hWF hInv
  simp only [betResultSettle]
  split
  · next r heq =>
    split at heq
    · next hb1 hb2 =>
      rw [betDebitBlock_error heq]
      exact ⟨hInv, hWF⟩
    · next =>
      exact absurd heq (by simp)
  · next working heq =>
    have hworkInv : Inv working ∧ WF working := by
      split at heq
      · next hb1 hb2 =>
        rcases betDebitBlock_ok heq with rfl | rfl
        · exact ⟨hInv, hWF⟩
        · exact inv_insert_apply _ _ _ _
            (hWF1.1 _ hmem1) rfl rfl
            (by unfold signedC; rw [if_pos (beq_self_eq_true "bet")]) hWF1 hInv1
      · next =>
        cases heq
        exact ⟨hInv1, hWF1⟩
    split
    · next r2 heq2 =>
      split at heq2
      · next hw1 hw2 =>
        rw [winCreditBlock_error heq2]
        exact ⟨hInv, hWF⟩
      · next =>
        exact absurd heq2 (by simp)
    · next working2 heq2 =>
      have hwork2Inv : Inv working2 ∧ WF working2 := by
        split at heq2
        · next wamt wext hw1 hw2 =>
          have hpair : parse_amount_and_ext req.win = (some wamt, some wext) := by
            rw [← hw1, ← hw2]
          exact inv_winCreditBlock_ok heq2 (hnn wamt wext hpair)
            hInv hWF hworkInv.1 hworkInv.2
        · next =>
          cases heq2
          exact hworkInv
      by_cases hc : faults.commitFail = true
      · rw [if_pos hc]
        exact ⟨hInv, hWF⟩
      · rw [if_neg hc]
        exact hwork2Inv

theorem inv_bet_result (cfg : BankCfg) (req : BetResultReq)
    (faults : BetFaults) (s : DBState) (hInv : Inv s) (hWF : WF s)
    (hnn : ∀ amt ext, parse_amount_and_ext req.win = (some amt, some ext) →
      0 ≤ amt) :
    Inv (bet_result cfg req faults s).1 ∧ WF (bet_result cfg req faults s).1 := by
  unfold bet_result
  split
  · exact ⟨hInv, hWF⟩
  · split
    · exact ⟨hInv, hWF⟩
    · exact inv_betResultSettle cfg req faults s hInv hWF hnn

theorem inv_refund_bet (cfg : BankCfg) (req : RefundReq)
    (faults : RefundFaults) (s : DBState) (hInv : Inv s) (hWF : WF s) :
    Inv (refund_bet cfg req faults s).1 ∧ WF (refund_bet cfg req faults s).1 := by
  simp only [refund_bet]
  split
  · exact ⟨hInv, hWF⟩
  · split
    · exact ⟨hInv, hWF⟩
    · next origBet hfind =>
      split
      · next r hlatest =>
        split
        · exact ⟨hInv, hWF⟩
        · split
          · exact ⟨hInv, hWF⟩
          · exact ⟨hInv, hWF⟩
      · next hlatest =>
        split
        · exact ⟨hInv, hWF⟩
        · next wallet hwallet =>
          have hmemw : wallet ∈ s.wallets := List.mem_of_find?_eq_some hwallet
          by_cases hc : faults.commitFail = true
          · rw [if_pos hc]
            by_cases hfs : faults.failSaveFail = true
            · rw [if_pos hfs]
              exact ⟨hInv, hWF⟩
            · rw [if_neg hfs]
              refine (inv_insert_contrib_zero s _ ?_ ?_ hWF hInv)
              · intro wid
                unfold contrib
                split
                · next hcond =>
                  exfalso
                  dsimp only at hcond
                  rw [Bool.and_eq_true] at hcond
                  exact absurd hcond.2 (by decide)
                · rfl
              · exact hWF.1 wallet hmemw
          · rw [if_neg hc]
            exact inv_insert_apply s _ wallet.walletId origBet.amountC
              (hWF.1 wallet hmemw) rfl rfl
              (by unfold signedC; dsimp only; rw [if_neg (by decide)])
              hWF hInv

/-- Claim C2 (amended): the empty database satisfies the ledger invariant
(every wallet's balance equals the sum of the signed amounts — bet
negative, win and refund positive — of its `Processed` journal rows), and
every refundBet operation and every betResult operation whose win side,
when present and parsed, carries a non-negative amount preserves the
invariant (and well-formedness) at the committed state, including on all
failure paths.  Without the non-negativity proviso the claim is false: a
negative win amount records a `Processed` win row without crediting the
wallet.  -/
theorem C2_ledger_invariant (cfg : BankCfg) (breq : BetResultReq)
    (bfaults : BetFaults) (rreq : RefundReq) (rfaults : RefundFaults)
    (s : DBState) (hInv : Inv s) (hWF : WF s)
    (hnn : ∀ amt ext, parse_amount_and_ext breq.win = (some amt, some ext) →
      0 ≤ amt) :
    Inv DBState.empty ∧
    (Inv (bet_result cfg breq bfaults s).1 ∧
      WF (bet_result cfg breq bfaults s).1) ∧
    (Inv (refund_bet cfg rreq rfaults s).1 ∧
      WF (refund_bet cfg rreq rfaults s).1) :=
  ⟨fun w hw => absurd hw (by simp [DBState.empty]),
   inv_bet_result cfg breq bfaults s hInv hWF hnn,
   inv_refund_bet cfg rreq rfaults s hInv hWF⟩

theorem C2_witness :
    Inv DBState.empty ∧
    (Inv (bet_result sampleCfg ⟨6111, 42, "g1", "r1",
        hash_for_bet_result 42 (some "80|abc") none none "r1" "g1" "sec",
        some "80|abc", none, none⟩ BetFaults.none DBState.empty).1 ∧
      WF (bet_result sampleCfg ⟨6111, 42, "g1", "r1",
        hash_for_bet_result 42 (some "80|abc") none none "r1" "g1" "sec",
        some "80|abc", none, none⟩ BetFaults.none DBState.empty).1) ∧
    (Inv (refund_bet sampleCfg ⟨6111, 42, "abc", md5_hex "42abcsec"⟩
        RefundFaults.none DBState.empty).1 ∧
      WF (refund_bet sampleCfg ⟨6111, 42, "abc", md5_hex "42abcsec"⟩
        RefundFaults.none DBState.empty).1) :=
  C2_ledger_invariant sampleCfg ⟨6111, 42, "g1", "r1",
    hash_for_bet_result 42 (some "80|abc") none none "r1" "g1" "sec",
    some "80|abc", none, none⟩ BetFaults.none ⟨6111, 42, "abc",
    md5_hex "42abcsec"⟩ RefundFaults.none DBState.empty (by decide) (by decide)
    (by intro amt ext h; simp [parse_amount_and_ext] at h)

/-- Claim C2 counterexample: starting from the empty (invariant-satisfying)
database, a valid-hash betResult with `win="-5|w1"` commits a `Processed`
win row of amount -0.05 without crediting the wallet (the code credits
only strictly positive win amounts), leaving balance 0 while the signed
`Processed` sum is -5 cents — the invariant does not hold at the resulting
committed state. -/
theorem C2_counterexample :
    Inv DBState.empty ∧
    ¬Inv (bet_result sampleCfg ⟨6111, 9, "g1", "r1",
        hash_for_bet_result 9 none (some "-5|w1") none "r1" "g1" "sec",
        none, some "-5|w1", none⟩ BetFaults.none DBState.empty).1 := by
  constructor
  · intro w hw
    exact absurd hw (by simp [DBState.empty])
  · decide

end Bsg



